import Mathlib

/-!
Verification development for the reeve_bot pulse-scheduling engine.

The definitions below are a shallow embedding of the Python sources:
  * `src/reeve/pulse/queue.py`   — the durable pulse store (`PulseQueue`)
  * `src/reeve/pulse/enums.py`   — status / priority enumerations
  * `src/reeve/utils/time_parser.py` — the flexible time-string grammar
  * `src/reeve/pulse/stream_parser.py` — the JSONL stream parser
  * `src/reeve/pulse/executor.py` — subprocess command construction and
    result handling
  * `src/reeve/pulse/daemon.py`  — the scheduler's per-pulse execution task
  * `src/reeve/sentinel/service.py` — cooldown-deduplicated alerting
  * `src/reeve/api/server.py`    — bearer-token authentication

Timestamps are modelled as integers counting seconds (the code's
timezone-aware UTC datetimes are linearly ordered instants; `timedelta`
arithmetic becomes integer addition, one minute = 60).  Database rows
become a list of `Pulse` records plus the autoincrement counter.
-/

namespace Reeve

/-- `PulseStatus` from `src/reeve/pulse/enums.py`. -/
inductive PulseStatus
  | pending
  | processing
  | completed
  | failed
  | cancelled
deriving DecidableEq, Repr

/-- `PulsePriority` from `src/reeve/pulse/enums.py`. -/
inductive PulsePriority
  | critical
  | high
  | normal
  | low
  | deferred
deriving DecidableEq, Repr

/-- One row of the `pulses` table (`src/reeve/pulse/models.py`), with the
field names used by `queue.py` (the spec notes `session_link` is an
obsolete alias of `session_id`).  `retry_count`/`max_retries` are natural
numbers: every code path that creates a pulse keeps them nonnegative. -/
structure Pulse where
  id : Nat
  scheduled_at : Int
  prompt : String
  priority : PulsePriority
  session_id : Option String
  sticky_notes : Option (List String)
  tags : Option (List String)
  created_by : String
  max_retries : Nat
  retry_count : Nat
  status : PulseStatus
  created_at : Int
  executed_at : Option Int
  execution_duration_ms : Option Nat
  error_message : Option String
deriving DecidableEq, Repr

/-- The database state behind a `PulseQueue`: the stored rows (in insertion
order) and the autoincrement counter for the next primary key. -/
structure Store where
  pulses : List Pulse
  nextId : Nat
deriving DecidableEq, Repr

/-- Well-formedness of a store: every stored row's primary key is below the
autoincrement counter (guaranteed by `autoincrement=True`). -/
def Store.WF (st : Store) : Prop :=
  ∀ p ∈ st.pulses, p.id < st.nextId

instance : DecidablePred Store.WF := fun st =>
  inferInstanceAs (Decidable (∀ p ∈ st.pulses, p.id < st.nextId))

/-- `session.get(Pulse, pulse_id)`: primary-key lookup. -/
def getPulse (st : Store) (pulseId : Nat) : Option Pulse :=
  st.pulses.find? (fun p => p.id == pulseId)

/-- Replace the row with primary key `pulseId` by `f` applied to it
(the ORM mutating a loaded row and committing). -/
def updatePulse (st : Store) (pulseId : Nat) (f : Pulse → Pulse) : Store :=
  { st with pulses := st.pulses.map (fun p => if p.id == pulseId then f p else p) }

/-- `PulseQueue.schedule_pulse` (queue.py lines 54-104): insert a PENDING
pulse and return its id.  `now` is the database clock used for the
`created_at` server default. -/
def schedulePulse (st : Store) (now : Int) (scheduled_at : Int) (prompt : String)
    (priority : PulsePriority := .normal) (session_id : Option String := none)
    (sticky_notes : Option (List String) := none) (tags : Option (List String) := none)
    (created_by : String := "system") (max_retries : Nat := 3) : Nat × Store :=
  let p : Pulse :=
    { id := st.nextId
      scheduled_at := scheduled_at
      prompt := prompt
      priority := priority
      session_id := session_id
      sticky_notes := sticky_notes
      tags := tags
      created_by := created_by
      max_retries := max_retries
      retry_count := 0
      status := .pending
      created_at := now
      executed_at := none
      execution_duration_ms := none
      error_message := none }
  (st.nextId, { pulses := st.pulses ++ [p], nextId := st.nextId + 1 })

/-- `PulseQueue.mark_processing` (queue.py lines 196-214): PENDING →
PROCESSING, refusing missing or non-PENDING pulses. -/
def markProcessing (st : Store) (pulseId : Nat) : Bool × Store :=
  match getPulse st pulseId with
  | none => (false, st)
  | some p =>
    if p.status ≠ PulseStatus.pending then (false, st)
    else (true, updatePulse st pulseId (fun q => { q with status := .processing }))

/-- `PulseQueue.mark_completed` (queue.py lines 216-231): if the pulse
exists, set status COMPLETED, `executed_at = now`, and the duration;
a missing pulse is a silent no-op. -/
def markCompleted (st : Store) (now : Int) (pulseId : Nat) (durationMs : Nat) : Store :=
  match getPulse st pulseId with
  | none => st
  | some _ =>
    updatePulse st pulseId (fun q =>
      { q with status := .completed, executed_at := some now,
               execution_duration_ms := some durationMs })

/-- `PulseQueue.mark_failed` (queue.py lines 233-285): set the pulse (any
existing pulse, no status guard) to FAILED with the error message and
`executed_at = now`; if `should_retry` and the retry budget is not
exhausted, insert a fresh PENDING retry pulse scheduled `2^retry_count`
minutes from now and return its id, else return `none`. -/
def retryOf (p : Pulse) (now : Int) (newId : Nat) : Pulse :=
  { id := newId
    scheduled_at := now + 60 * 2 ^ p.retry_count
    prompt := p.prompt
    priority := p.priority
    session_id := p.session_id
    sticky_notes := p.sticky_notes
    tags := p.tags
    created_by := "retry_" ++ p.created_by
    max_retries := p.max_retries
    retry_count := p.retry_count + 1
    status := .pending
    created_at := now
    executed_at := none
    execution_duration_ms := none
    error_message := none }

def markFailed (st : Store) (now : Int) (pulseId : Nat) (errorMessage : String)
    (shouldRetry : Bool := true) : Option Nat × Store :=
  match getPulse st pulseId with
  | none => (none, st)
  | some p =>
    let st1 := updatePulse st pulseId (fun q =>
      { q with status := .failed, error_message := some errorMessage,
               executed_at := some now })
    if shouldRetry ∧ p.retry_count < p.max_retries then
      (some st.nextId, { pulses := st1.pulses ++ [retryOf p now st.nextId],
                         nextId := st.nextId + 1 })
    else (none, st1)

/-- `PulseQueue.cancel_pulse` (queue.py lines 287-305): PENDING →
CANCELLED, refusing missing or non-PENDING pulses. -/
def cancelPulse (st : Store) (pulseId : Nat) : Bool × Store :=
  match getPulse st pulseId with
  | none => (false, st)
  | some p =>
    if p.status ≠ PulseStatus.pending then (false, st)
    else (true, updatePulse st pulseId (fun q => { q with status := .cancelled }))

/-- `PulseQueue.reschedule_pulse` (queue.py lines 307-326): PENDING only. -/
def reschedulePulse (st : Store) (pulseId : Nat) (newScheduledAt : Int) : Bool × Store :=
  match getPulse st pulseId with
  | none => (false, st)
  | some p =>
    if p.status ≠ PulseStatus.pending then (false, st)
    else (true, updatePulse st pulseId (fun q => { q with scheduled_at := newScheduledAt }))

/-- The CASE expression of `get_due_pulses` (queue.py lines 130-137): a
numeric sort key for priorities, lower = more urgent (the `else_=6` branch
is unreachable for the enumerated priorities). -/
def priorityOrder : PulsePriority → Nat
  | .critical => 1
  | .high => 2
  | .normal => 3
  | .low => 4
  | .deferred => 5

/-- The WHERE clause of `get_due_pulses` (queue.py line 141):
`scheduled_at <= now AND status = PENDING`.  The `<=` makes a pulse whose
`scheduled_at` equals `now` due. -/
def isDue (now : Int) (p : Pulse) : Bool :=
  decide (p.scheduled_at ≤ now) && decide (p.status = PulseStatus.pending)

/-- The rows satisfying the WHERE clause of `get_due_pulses`, in table
order. -/
def dueRows (st : Store) (now : Int) : List Pulse :=
  st.pulses.filter (isDue now)

/-- The ORDER BY key comparison of `get_due_pulses` (queue.py lines
142-147): priority CASE value ascending, then `scheduled_at` ascending.
The row `id` is NOT part of the ORDER BY. -/
def dueKeyLE (p q : Pulse) : Prop :=
  priorityOrder p.priority < priorityOrder q.priority ∨
    (priorityOrder p.priority = priorityOrder q.priority ∧ p.scheduled_at ≤ q.scheduled_at)

instance : DecidableRel dueKeyLE := fun _ _ =>
  inferInstanceAs (Decidable (_ ∨ _))

/-- Relational semantics of `get_due_pulses(limit)` (queue.py lines
106-152).  SQL `ORDER BY a, b LIMIT n` returns the first `n` rows of some
total ordering of the selected rows that is consistent with the ORDER BY
keys; the relative order of rows that tie on both keys is left unspecified
by the query.  `getDueResult st now limit res` says `res` is one
admissible result. -/
def getDueResult (st : Store) (now : Int) (limit : Nat) (res : List Pulse) : Prop :=
  ∃ l : List Pulse, l.Perm (dueRows st now) ∧ l.Sorted dueKeyLE ∧ res = l.take limit

/-- The spec's claimed total order: priority, then `scheduled_at`, with
ties on both keys broken by `id` ascending.  Written from the spec's
words (spec §4.1 `get_due`), for comparison with `getDueResult`. -/
def dueKeyIdLE (p q : Pulse) : Prop :=
  priorityOrder p.priority < priorityOrder q.priority ∨
    (priorityOrder p.priority = priorityOrder q.priority ∧
      (p.scheduled_at < q.scheduled_at ∨
        (p.scheduled_at = q.scheduled_at ∧ p.id ≤ q.id)))

instance : DecidableRel dueKeyIdLE := fun _ _ =>
  inferInstanceAs (Decidable (_ ∨ _))

/-- The result `get_due` would have to produce under the spec's claimed
ordering: the due rows sorted by (priority, scheduled_at, id), capped at
`limit`.  Written from the spec's words, for comparison with
`getDueResult`. -/
def specDue (st : Store) (now : Int) (limit : Nat) : List Pulse :=
  ((dueRows st now).insertionSort dueKeyIdLE).take limit

/-- Key sanitization of `SentinelService._cooldown_path`
(sentinel/service.py line 63): every character outside `[a-zA-Z0-9_-]` is
replaced by an underscore.  `Char.isAlphanum` is exactly ASCII
`[a-zA-Z0-9]`. -/
def sanitizeKey (key : String) : String :=
  key.map (fun c => if c.isAlphanum || c = '_' || c = '-' then c else '_')

/-- The sentinel state directory: one touch file per sanitized key, whose
mtime (seconds) is the last-delivery timestamp. -/
structure SentinelState where
  cooldowns : List (String × Int)
deriving DecidableEq, Repr

/-- `SentinelService._cooldown_expired` (sentinel/service.py lines 66-76):
true when no touch file exists for the sanitized key or its mtime is at
least `cooldown_seconds` old.  (The `OSError` branch, which also yields
true, is filesystem-fault behaviour outside this model.) -/
def cooldownExpired (stt : SentinelState) (timeNow : Int) (key : String)
    (cooldownSeconds : Int) : Bool :=
  match stt.cooldowns.find? (fun e => e.1 == sanitizeKey key) with
  | none => true
  | some e => decide (cooldownSeconds ≤ timeNow - e.2)

/-- `SentinelService._touch_cooldown` (sentinel/service.py lines 78-85):
set the touch file's mtime for the sanitized key to the current time. -/
def touchCooldown (stt : SentinelState) (timeNow : Int) (key : String) : SentinelState :=
  ⟨(sanitizeKey key, timeNow) :: stt.cooldowns.filter (fun e => !(e.1 == sanitizeKey key))⟩

/-- `SentinelService.alert` (sentinel/service.py lines 30-58).  The
backend is a function `message → delivered?` (the `AlertBackend.send`
contract: returns a Bool, never raises).  Python's truthiness test
`if cooldown_key` is false for both `None` and the empty string, so an
empty key disables the cooldown entirely.  The embedding is a total
function: `alert` never raises. -/
def alert (backend : String → Bool) (stt : SentinelState) (timeNow : Int)
    (message : String) (cooldownKey : Option String) (cooldownSeconds : Int := 1800) :
    Bool × SentinelState :=
  match cooldownKey with
  | some k =>
    if !k.isEmpty && !(cooldownExpired stt timeNow k cooldownSeconds) then
      (false, stt)
    else
      let success := backend message
      if success && !k.isEmpty then (success, touchCooldown stt timeNow k)
      else (success, stt)
  | none =>
    let success := backend message
    (success, stt)

/-- One Sentinel invocation (message and cooldown key), for observing
which alerts the scheduler's execution task issues. -/
structure SentinelCall where
  message : String
  cooldown_key : String
deriving DecidableEq, Repr

/-- `PulseDaemon._execute_pulse` (daemon.py lines 61-116), the
post-execution bookkeeping of the scheduler's per-pulse task.  `outcome`
is the result of `executor.execute`: `.ok durationMs` when the run
succeeded, `.error e` when it raised (the daemon's `except` branch).
Returns the updated store, the value `mark_failed` returned (none on the
success path), and the list of Sentinel invocations the task performs.
The source's failure branch (lines 102-116) only logs — it never calls
`reeve.sentinel.send_alert` — so the invocation list is `[]` on every
path. -/
def daemonExecutePulse (st : Store) (now : Int) (pulseId : Nat)
    (outcome : Except String Nat) : Store × Option Nat × List SentinelCall :=
  match outcome with
  | .ok durationMs => (markCompleted st now pulseId durationMs, none, [])
  | .error e =>
    let r := markFailed st now pulseId e true
    (r.2, r.1, [])

/-- The opening curly brace character. -/
def braceOpen : Char := Char.ofNat 123

/-- The closing curly brace character. -/
def braceClose : Char := Char.ofNat 125

/-- JSON values as produced by Python's `json.loads`.  Numbers keep their
source literal: none of the code modelled here uses a number's value
beyond its truthiness. -/
inductive Json where
  | null
  | bool (b : Bool)
  | num (lit : String)
  | str (s : String)
  | arr (items : List Json)
  | obj (fields : List (String × Json))

/-- The whitespace characters JSON allows between tokens. -/
def isJsonWs (c : Char) : Bool :=
  c = ' ' || c = '\t' || c = '\n' || c = '\r'

def skipWs (cs : List Char) : List Char :=
  cs.dropWhile isJsonWs

/-- Hexadecimal digit test. -/
def isHexDigitCh (c : Char) : Bool :=
  c.isDigit || ('a' ≤ c && c ≤ 'f') || ('A' ≤ c && c ≤ 'F')

/-- Value of a hexadecimal digit. -/
def hexVal (c : Char) : Nat :=
  if c.isDigit then c.toNat - 48
  else if 'a' ≤ c ∧ c ≤ 'f' then c.toNat - 87
  else if 'A' ≤ c ∧ c ≤ 'F' then c.toNat - 55
  else 0

/-- JSON string body parser (after the opening quote), with the standard
escapes.  Strict mode: raw control characters are rejected.  A surrogate
pair `\uD800-\uDBFF` + `\uDC00-\uDFFF` combines into one code point; a
lone surrogate (which Python would keep as a surrogate code unit that
Lean strings cannot represent) becomes U+FFFD. -/
def parseStringAux : Nat → List Char → List Char → Option (List Char × List Char)
  | 0, _, _ => none
  | Nat.succ _, _, [] => none
  | Nat.succ fuel, acc, c :: t =>
    if c = '"' then some (acc.reverse, t)
    else if c = '\\' then
      match t with
      | [] => none
      | e :: t2 =>
        if e = '"' then parseStringAux fuel ('"' :: acc) t2
        else if e = '\\' then parseStringAux fuel ('\\' :: acc) t2
        else if e = '/' then parseStringAux fuel ('/' :: acc) t2
        else if e = 'b' then parseStringAux fuel ('\x08' :: acc) t2
        else if e = 'f' then parseStringAux fuel ('\x0c' :: acc) t2
        else if e = 'n' then parseStringAux fuel ('\n' :: acc) t2
        else if e = 'r' then parseStringAux fuel ('\r' :: acc) t2
        else if e = 't' then parseStringAux fuel ('\t' :: acc) t2
        else if e = 'u' then
          match t2 with
          | h1 :: h2 :: h3 :: h4 :: t3 =>
            if isHexDigitCh h1 && isHexDigitCh h2 && isHexDigitCh h3 && isHexDigitCh h4 then
              let v := 4096 * hexVal h1 + 256 * hexVal h2 +
                16 * hexVal h3 + hexVal h4
              if 0xD800 ≤ v ∧ v ≤ 0xDBFF then
                match t3 with
                | '\\' :: 'u' :: k1 :: k2 :: k3 :: k4 :: t4 =>
                  if isHexDigitCh k1 && isHexDigitCh k2 && isHexDigitCh k3 && isHexDigitCh k4 then
                    let w := 4096 * hexVal k1 + 256 * hexVal k2 +
                      16 * hexVal k3 + hexVal k4
                    if 0xDC00 ≤ w ∧ w ≤ 0xDFFF then
                      parseStringAux fuel
                        (Char.ofNat (0x10000 + (v - 0xD800) * 1024 + (w - 0xDC00)) :: acc) t4
                    else parseStringAux fuel ('\uFFFD' :: acc) t3
                  else parseStringAux fuel ('\uFFFD' :: acc) t3
                | _ => parseStringAux fuel ('\uFFFD' :: acc) t3
              else if 0xDC00 ≤ v ∧ v ≤ 0xDFFF then parseStringAux fuel ('\uFFFD' :: acc) t3
              else parseStringAux fuel (Char.ofNat v :: acc) t3
            else none
          | _ => none
        else none
    else if c.toNat < 0x20 then none
    else parseStringAux fuel (c :: acc) t

/-- JSON number literal, per the grammar
`-?(0|[1-9][0-9]*)(\.[0-9]+)?([eE][+-]?[0-9]+)?`; returns the literal and
the rest. -/
def parseNumber (cs : List Char) : Option (String × List Char) :=
  let (sign, cs1) : List Char × List Char :=
    match cs with
    | '-' :: t => (['-'], t)
    | _ => ([], cs)
  match cs1 with
  | c :: t =>
    if c = '0' ∨ c.isDigit ∧ c ≠ '0' then
      let (intPart, rest) : List Char × List Char :=
        if c = '0' then (['0'], t)
        else ((c :: t).takeWhile Char.isDigit, (c :: t).dropWhile Char.isDigit)
      let (fracPart, rest2) : List Char × List Char :=
        match rest with
        | '.' :: d :: t2 =>
          if d.isDigit then
            ('.' :: (d :: t2).takeWhile Char.isDigit, (d :: t2).dropWhile Char.isDigit)
          else ([], rest)
        | _ => ([], rest)
      let (expPart, rest3) : List Char × List Char :=
        match rest2 with
        | e :: t2 =>
          if e = 'e' ∨ e = 'E' then
            match t2 with
            | s :: d :: t3 =>
              if (s = '+' ∨ s = '-') ∧ d.isDigit then
                (e :: s :: (d :: t3).takeWhile Char.isDigit,
                  (d :: t3).dropWhile Char.isDigit)
              else if s.isDigit then
                (e :: (s :: d :: t3).takeWhile Char.isDigit,
                  (s :: d :: t3).dropWhile Char.isDigit)
              else ([], rest2)
            | [s] => if s.isDigit then ([e, s], []) else ([], rest2)
            | [] => ([], rest2)
          else ([], rest2)
        | [] => ([], rest2)
      some (String.mk (sign ++ intPart ++ fracPart ++ expPart), rest3)
    else none
  | [] => none

mutual

/-- Recursive-descent JSON value parser modelling `json.loads` (with the
Python extensions `NaN`, `Infinity`, `-Infinity`).  `fuel` bounds the
recursion depth; `loads` supplies enough for its input. -/
def parseValue : Nat → List Char → Option (Json × List Char)
  | 0, _ => none
  | Nat.succ fuel, cs =>
    match skipWs cs with
    | 'n' :: 'u' :: 'l' :: 'l' :: t => some (.null, t)
    | 't' :: 'r' :: 'u' :: 'e' :: t => some (.bool true, t)
    | 'f' :: 'a' :: 'l' :: 's' :: 'e' :: t => some (.bool false, t)
    | 'N' :: 'a' :: 'N' :: t => some (.num "NaN", t)
    | 'I' :: 'n' :: 'f' :: 'i' :: 'n' :: 'i' :: 't' :: 'y' :: t =>
      some (.num "Infinity", t)
    | '-' :: 'I' :: 'n' :: 'f' :: 'i' :: 'n' :: 'i' :: 't' :: 'y' :: t =>
      some (.num "-Infinity", t)
    | '"' :: t => (parseStringAux (t.length + 1) [] t).map (fun r => (.str (String.mk r.1), r.2))
    | '[' :: t =>
      (match skipWs t with
       | ']' :: t2 => some (.arr [], t2)
       | _ => parseArrayAux fuel [] t)
    | c :: t =>
      if c = braceOpen then
        match skipWs t with
        | c2 :: t2 =>
          if c2 = braceClose then some (.obj [], t2)
          else parseObjAux fuel [] (c2 :: t2)
        | [] => none
      else (parseNumber (c :: t)).map (fun r => (.num r.1, r.2))
    | [] => none

/-- Comma-separated array items after `[`. -/
def parseArrayAux : Nat → List Json → List Char → Option (Json × List Char)
  | 0, _, _ => none
  | Nat.succ fuel, acc, cs =>
    match parseValue fuel cs with
    | none => none
    | some (v, r) =>
      match skipWs r with
      | ',' :: t => parseArrayAux fuel (v :: acc) t
      | ']' :: t => some (.arr (v :: acc).reverse, t)
      | _ => none

/-- Comma-separated `"key": value` fields after a nonempty `{`. -/
def parseObjAux : Nat → List (String × Json) → List Char → Option (Json × List Char)
  | 0, _, _ => none
  | Nat.succ fuel, acc, cs =>
    match skipWs cs with
    | '"' :: t =>
      match parseStringAux (t.length + 1) [] t with
      | none => none
      | some (k, r) =>
        match skipWs r with
        | ':' :: t2 =>
          match parseValue fuel t2 with
          | none => none
          | some (v, r2) =>
            match skipWs r2 with
            | ',' :: t3 => parseObjAux fuel ((String.mk k, v) :: acc) t3
            | c :: t3 =>
              if c = braceClose then some (.obj ((String.mk k, v) :: acc).reverse, t3)
              else none
            | [] => none
        | _ => none
    | _ => none

end

/-- `json.loads`: parse one JSON document, requiring only whitespace after
it; `none` models `JSONDecodeError`. -/
def loads (s : String) : Option Json :=
  match parseValue (2 * s.length + 2) s.data with
  | some (v, rest) => if (skipWs rest).isEmpty then some v else none
  | none => none

/-- `dict.get(k)` on an object built by `json.loads`: with duplicate keys
the later entry wins, as in Python's dict construction. -/
def jsonGet (fields : List (String × Json)) (k : String) : Option Json :=
  (fields.reverse.find? (fun e => e.1 == k)).map (fun e => e.2)

/-- Zero test for a JSON number literal (used for Python truthiness):
a literal denotes zero exactly when its mantissa has no nonzero digit. -/
def numLitIsZero (lit : String) : Bool :=
  (lit.data.takeWhile (fun c => c ≠ 'e' ∧ c ≠ 'E')).all
    (fun c => c = '0' || c = '.' || c = '-' || c = '+')

/-- Python truthiness of a decoded JSON value. -/
def jsonTruthy : Json → Bool
  | .null => false
  | .bool b => b
  | .num lit => !(numLitIsZero lit)
  | .str s => !s.isEmpty
  | .arr l => !l.isEmpty
  | .obj f => !f.isEmpty

/-- `ExecutionResult` from `src/reeve/pulse/executor.py`. -/
structure ExecutionResult where
  stdout : String
  stderr : String
  return_code : Int
  timed_out : Bool
  session_id : Option String
deriving DecidableEq, Repr

/-- Command construction of `PulseExecutor.execute` (executor.py lines
96-106): `<hapi_command> --print --output-format json`, then
`--resume <session_id>` exactly when the session id is truthy (Python's
`if session_id:` is false for `None` and for the empty string), then the
prompt as the final positional argument. -/
def buildCmd (hapiCommand : String) (sessionId : Option String) (prompt : String) :
    List String :=
  [hapiCommand, "--print", "--output-format", "json"] ++
    (match sessionId with
     | some s => if s.isEmpty then [] else ["--resume", s]
     | none => []) ++
    [prompt]

/-- The invocation the spec claims (§4.3): `--print --output-format
stream-json --verbose [--resume <sid>] <prompt>`.  Written from the
spec's words, for comparison with `buildCmd`. -/
def specCmd (agentCmd : String) (sessionId : Option String) (prompt : String) :
    List String :=
  [agentCmd, "--print", "--output-format", "stream-json", "--verbose"] ++
    (match sessionId with
     | some s => if s.isEmpty then [] else ["--resume", s]
     | none => []) ++
    [prompt]

/-- Post-subprocess handling of `PulseExecutor.execute` (executor.py lines
119-167), as a function of the child's outcome.  `.error` models a raised
`RuntimeError`.  On a timeout the child is killed and a "timed out"
failure is raised; a non-zero exit raises; on exit code 0 the collected
stdout is parsed as ONE JSON document by `json.loads` (not by the stream
parser) and a string `session_id` entry becomes the result's session id.
A decode failure is swallowed (no session id); a document that is not an
object (`.get` raises `AttributeError`) or a non-string, non-null
`session_id` (pydantic validation of `ExecutionResult`) surfaces through
the generic `except Exception` re-raise. -/
def executeOutcome (timedOut : Bool) (returnCode : Int) (stdoutStr stderrStr : String) :
    Except String ExecutionResult :=
  if timedOut then .error "timed out"
  else if returnCode ≠ 0 then .error "non-zero exit"
  else
    match loads stdoutStr with
    | none => .ok ⟨stdoutStr, stderrStr, returnCode, false, none⟩
    | some (Json.obj fields) =>
      match jsonGet fields "session_id" with
      | none => .ok ⟨stdoutStr, stderrStr, returnCode, false, none⟩
      | some Json.null => .ok ⟨stdoutStr, stderrStr, returnCode, false, none⟩
      | some (Json.str s) => .ok ⟨stdoutStr, stderrStr, returnCode, false, some s⟩
      | some _ => .error "unexpected error"
    | some _ => .error "unexpected error"

/-- `HapiEventType` (stream_parser.py lines 17-31). -/
inductive HapiEventType
  | system
  | assistant
  | user
  | result
deriving DecidableEq, Repr

/-- `HapiEventType(value)`: the enum constructor; `none` models the
`ValueError` branch (unknown event type → line skipped).  Only the four
exact lowercase strings convert. -/
def eventTypeOf : Json → Option HapiEventType
  | .str "system" => some .system
  | .str "assistant" => some .assistant
  | .str "user" => some .user
  | .str "result" => some .result
  | _ => none

/-- `ToolUseInfo` (stream_parser.py lines 34-44); `id` and `name` carry
the decoded JSON values of `item.get("id", "")` / `item.get("name", "")`
as-is. -/
structure ToolUseInfo where
  id : Json
  name : Json

/-- `ToolResultInfo` (stream_parser.py lines 47-55). -/
structure ToolResultInfo where
  tool_use_id : Json

/-- `HapiStreamEvent` (stream_parser.py lines 58-80).  `parse_line`
assigns `subtype`, `session_id`, `is_error` and `error_message` straight
from the decoded JSON (pydantic does not re-validate on plain attribute
assignment), so these fields hold raw JSON values; `is_error` defaults to
`False`. -/
structure HapiStreamEvent where
  type : HapiEventType
  subtype : Option Json
  session_id : Option Json
  is_error : Json
  error_message : Option Json
  tool_uses : List ToolUseInfo
  tool_results : List ToolResultInfo

/-- The parser's accumulated state (`HapiStreamParser.__init__` /
`reset`, stream_parser.py lines 128-135 and 259-265). -/
structure ParserState where
  events : List HapiStreamEvent
  session_id : Option Json
  is_error : Bool
  error_message : Option Json
  tool_call_count : Nat

/-- The state after `reset()`. -/
def initState : ParserState := ⟨[], none, false, none, 0⟩

/-- `StreamParseResult` (stream_parser.py lines 83-102). -/
structure StreamParseResult where
  session_id : Option Json
  is_error : Bool
  error_message : Option Json
  tool_call_count : Nat
  events : List HapiStreamEvent

/-- The ASCII whitespace stripped by Python's `str.strip()`. -/
def isPyWs (c : Char) : Bool :=
  c = ' ' || c = '\t' || c = '\n' || c = '\r' || c = '\x0b' || c = '\x0c'

/-- Remove trailing Python whitespace. -/
def trimTail (l : List Char) : List Char :=
  (l.reverse.dropWhile isPyWs).reverse

/-- Python `str.strip()`: remove leading and trailing whitespace. -/
def pyStripChars (cs : List Char) : List Char :=
  trimTail (cs.dropWhile isPyWs)

/-- The suffix of a line from its first opening brace
(`line[line.find("\x7b"):]`). -/
def dropToBrace (l : List Char) : List Char :=
  l.dropWhile (fun c => c ≠ braceOpen)

/-- `x == "lit"` on a value obtained from `dict.get`: true only for that
exact string. -/
def optIsStr (j : Option Json) (s : String) : Bool :=
  match j with
  | some (.str t) => t == s
  | _ => false

/-- `message.content` extraction of `parse_line` (stream_parser.py lines
209-210, 224-225): `data.get("message", {}).get("content", [])`.  A
non-object `message` would raise `AttributeError` in Python (the stream
never produces one); it is totalised here as an empty content list. -/
def contentOf (fields : List (String × Json)) : Json :=
  match (jsonGet fields "message").getD (.obj []) with
  | .obj mm => (jsonGet mm "content").getD (.arr [])
  | _ => .arr []

/-- Tool-use extraction from an assistant event's content
(stream_parser.py lines 211-219).  Non-list content or non-object items
would raise in Python (never produced by the stream); totalised as
skipped. -/
def toolUsesOf (content : Json) : List ToolUseInfo :=
  match content with
  | .arr items =>
    items.filterMap (fun item =>
      match item with
      | .obj im =>
        if optIsStr (jsonGet im "type") "tool_use" then
          some ⟨(jsonGet im "id").getD (.str ""), (jsonGet im "name").getD (.str "")⟩
        else none
      | _ => none)
  | _ => []

/-- Tool-result extraction from a user event's content (stream_parser.py
lines 221-230). -/
def toolResultsOf (content : Json) : List ToolResultInfo :=
  match content with
  | .arr items =>
    items.filterMap (fun item =>
      match item with
      | .obj im =>
        if optIsStr (jsonGet im "type") "tool_result" then
          some ⟨(jsonGet im "tool_use_id").getD (.str "")⟩
        else none
      | _ => none)
  | _ => []

/-- The event-building tail of `parse_line` (stream_parser.py lines
180-234), after the line has been decoded to a JSON object with a valid
event type. -/
def buildEvent (st : ParserState) (fields : List (String × Json)) (ety : HapiEventType) :
    ParserState × Option HapiStreamEvent :=
  let subtype := jsonGet fields "subtype"
  let sessionId := jsonGet fields "session_id"
  let sessTruthy : Bool :=
    match sessionId with
    | some j => jsonTruthy j
    | none => false
  let st1 :=
    if ety = HapiEventType.system ∧ optIsStr subtype "init" ∧ sessTruthy then
      { st with session_id := sessionId }
    else st
  let isErr : Json := (jsonGet fields "is_error").getD (.bool false)
  let errMsg : Option Json :=
    if ety = HapiEventType.result ∧ jsonTruthy isErr then
      match (jsonGet fields "errors").getD (.arr []) with
      | .arr (e :: _) => some e
      | _ => none
    else none
  let st2 :=
    if ety = HapiEventType.result ∧ jsonTruthy isErr then
      { st1 with is_error := true,
                 error_message :=
                   match errMsg with
                   | some e => some e
                   | none => st1.error_message }
    else st1
  let st3 :=
    if ety = HapiEventType.result ∧ sessTruthy ∧ st2.session_id.isNone then
      { st2 with session_id := sessionId }
    else st2
  let content := contentOf fields
  let uses := if ety = HapiEventType.assistant then toolUsesOf content else []
  let results := if ety = HapiEventType.user then toolResultsOf content else []
  let st4 := { st3 with tool_call_count := st3.tool_call_count + uses.length }
  let event : HapiStreamEvent :=
    { type := ety
      subtype := subtype
      session_id := sessionId
      is_error := if ety = HapiEventType.result then isErr else .bool false
      error_message := errMsg
      tool_uses := uses
      tool_results := results }
  ({ st4 with events := st4.events ++ [event] }, some event)

/-- The JSON-decoding tail of `parse_line` (stream_parser.py lines
162-179): decode failures and missing / falsy / unknown `type` fields are
skipped.  A decoded non-object (whose `.get` would raise in Python — the
stream never produces one) is totalised as a skip. -/
def handleJsonLine (st : ParserState) (line : String) :
    ParserState × Option HapiStreamEvent :=
  match loads line with
  | none => (st, none)
  | some (.obj fields) =>
    (match jsonGet fields "type" with
     | none => (st, none)
     | some tval =>
       if !jsonTruthy tval then (st, none)
       else
         match eventTypeOf tval with
         | none => (st, none)
         | some ety => buildEvent st fields ety)
  | some _ => (st, none)

/-- `HapiStreamParser.parse_line` (stream_parser.py lines 137-234), on
the character list of one line: strip whitespace; skip blank lines; skip
lines with no opening brace (`line.find("{") == -1`); otherwise drop the
prefix before the first brace (`line[json_start:]`, a no-op when the
brace is first) and decode. -/
def parseLineChars (st : ParserState) (cs : List Char) :
    ParserState × Option HapiStreamEvent :=
  let line := pyStripChars cs
  if line.isEmpty then (st, none)
  else if braceOpen ∈ line then
    handleJsonLine st (String.mk (dropToBrace line))
  else (st, none)

/-- `parse_line` on a line string. -/
def parse_line (st : ParserState) (line : String) :
    ParserState × Option HapiStreamEvent :=
  parseLineChars st line.data

/-- Python `str.split("\n")`: split at every newline, preserving empty
fragments (never returns an empty list). -/
def splitNL : List Char → List (List Char)
  | [] => [[]]
  | c :: t =>
    if c = '\n' then [] :: splitNL t
    else
      match splitNL t with
      | h :: r => (c :: h) :: r
      | [] => [[c]]

/-- Fold `parse_line` over the lines, threading the parser state
(the loop of `parse_all`, stream_parser.py lines 248-249). -/
def runLines (st : ParserState) : List (List Char) → ParserState
  | [] => st
  | l :: ls => runLines (parseLineChars st l).1 ls

/-- `HapiStreamParser.parse_all` (stream_parser.py lines 236-257): reset,
parse every `"\n"`-separated line, and package the aggregate. -/
def parse_all (stdout : String) : StreamParseResult :=
  let fin := runLines initState (splitNL stdout.data)
  ⟨fin.session_id, fin.is_error, fin.error_message, fin.tool_call_count, fin.events⟩

/-- A Python `datetime` value: the wall-clock fields linearised to
seconds (via the proleptic Gregorian calendar), microseconds, and the
`tzinfo` as a UTC offset in minutes (`none` = naive). -/
structure PyDateTime where
  seconds : Int
  micro : Nat
  tzOffsetMinutes : Option Int
deriving DecidableEq, Repr

/-- Python `str.strip()` on a string. -/
def pyStripString (s : String) : String :=
  String.mk (pyStripChars s.data)

/-- Python `"c" in s` for a single character. -/
def pyContains (s : String) (c : Char) : Bool :=
  s.data.any (fun x => x = c)

/-- Python `s.endswith(suffix)`. -/
def pyEndsWith (s sfx : String) : Bool :=
  sfx.data.isSuffixOf s.data

/-- Python `s.startswith(p)`. -/
def pyStartsWith (s p : String) : Bool :=
  p.data.isPrefixOf s.data

/-- Python `s.lower()` (ASCII; the grammar only involves ASCII). -/
def pyLower (s : String) : String :=
  String.mk (s.data.map Char.toLower)

/-- Python `s.replace("Z", "+00:00")`. -/
def pyReplaceZ (s : String) : String :=
  String.mk (s.data.flatMap (fun c => if c = 'Z' then "+00:00".data else [c]))

/-- Python `s[n:]`. -/
def pyDropLeft (s : String) (n : Nat) : String :=
  String.mk (s.data.drop n)

/-- Python `s.rstrip("s")`: remove every trailing `'s'`. -/
def rstripS (s : String) : String :=
  String.mk (s.data.reverse.dropWhile (fun c => c = 's')).reverse

/-- Python `s.split()` (no separator): split on whitespace runs,
discarding empty fragments. -/
def pySplit (s : String) : List String :=
  ((s.data.splitOnP isPyWs).filter (fun l => !l.isEmpty)).map String.mk

/-- Decimal digits with Python's single-underscore grouping
(`int("1_0") = 10`; `"1__0"`, `"1_"` are errors). -/
def digitsVal : Nat → List Char → Option Nat
  | acc, [] => some acc
  | acc, c :: t =>
    if c.isDigit then digitsVal (10 * acc + (c.toNat - 48)) t
    else if c = '_' then
      match t with
      | d :: t2 => if d.isDigit then digitsVal (10 * acc + (d.toNat - 48)) t2 else none
      | [] => none
    else none

/-- A nonempty digit-led token for `int()`. -/
def pyDigits (l : List Char) : Option Nat :=
  match l with
  | [] => none
  | d :: t => if d.isDigit then digitsVal 0 (d :: t) else none

/-- Python `int(s)` for an already-stripped token: optional sign, then
ASCII digits with optional underscore grouping. -/
def pyInt (s : String) : Option Int :=
  match s.data with
  | [] => none
  | c0 :: rest =>
    if c0 = '+' then (pyDigits rest).map Int.ofNat
    else if c0 = '-' then (pyDigits rest).map (fun v => -(Int.ofNat v))
    else (pyDigits (c0 :: rest)).map Int.ofNat

/-- Days from 1970-01-01 of a proleptic-Gregorian date (civil-from-days
inverse, using truncating division as the formula requires). -/
def daysFromCivil (y m d : Int) : Int :=
  let y' := if m ≤ 2 then y - 1 else y
  let era := (if 0 ≤ y' then y' else y' - 399).tdiv 400
  let yoe := y' - era * 400
  let doy := (153 * (if 2 < m then m - 3 else m + 9) + 2).tdiv 5 + d - 1
  let doe := yoe * 365 + yoe.tdiv 4 - yoe.tdiv 100 + doy
  era * 146097 + doe - 719468

def isLeap (y : Int) : Bool :=
  (y % 4 == 0 && y % 100 != 0) || y % 400 == 0

def daysInMonth (y : Int) (m : Nat) : Nat :=
  match m with
  | 1 => 31
  | 2 => if isLeap y then 29 else 28
  | 3 => 31
  | 4 => 30
  | 5 => 31
  | 6 => 30
  | 7 => 31
  | 8 => 31
  | 9 => 30
  | 10 => 31
  | 11 => 30
  | 12 => 31
  | _ => 0

/-- Exactly `n` ASCII digits, returning their value and the rest. -/
def parseNDigits (n : Nat) (cs : List Char) : Option (Nat × List Char) :=
  let ds := cs.take n
  if ds.length = n ∧ ds.all Char.isDigit then
    some (ds.foldl (fun a c => 10 * a + (c.toNat - 48)) 0, cs.drop n)
  else none

/-- One to six fractional-second digits, scaled to microseconds. -/
def parseFrac (cs : List Char) : Option (Nat × List Char) :=
  let ds := cs.takeWhile Char.isDigit
  if 1 ≤ ds.length ∧ ds.length ≤ 6 then
    some ((ds.foldl (fun a c => 10 * a + (c.toNat - 48)) 0) * 10 ^ (6 - ds.length),
      cs.dropWhile Char.isDigit)
  else none

/-- The optional `±HH:MM` offset and end-of-string. -/
def parseOffset (cs : List Char) : Option (Option Int) :=
  match cs with
  | [] => some none
  | sign :: r =>
    if sign = '+' ∨ sign = '-' then
      match parseNDigits 2 r with
      | some (oh, ':' :: r2) =>
        match parseNDigits 2 r2 with
        | some (om, []) =>
          if oh ≤ 23 ∧ om ≤ 59 then
            some (some ((if sign = '-' then -1 else 1) * (60 * (oh : Int) + om)))
          else none
        | _ => none
      | _ => none
    else none

/-- `datetime.fromisoformat`, modelled for the `YYYY-MM-DD` /
`YYYY-MM-DDTHH:MM[:SS[.ffffff]][±HH:MM]` shapes (the `T` separator; the
shapes the repo feeds it).  `none` models `ValueError`.  An explicit
offset is kept as-is (no conversion to UTC); no offset yields a naive
datetime. -/
def fromisoformat (s : String) : Option PyDateTime :=
  match parseNDigits 4 s.data with
  | some (y, '-' :: r1) =>
    (match parseNDigits 2 r1 with
     | some (mo, '-' :: r2) =>
       (match parseNDigits 2 r2 with
        | some (d, r3) =>
          if 1 ≤ y ∧ 1 ≤ mo ∧ mo ≤ 12 ∧ 1 ≤ d ∧ d ≤ daysInMonth y mo then
            let dateSec : Int := 86400 * daysFromCivil y mo d
            match r3 with
            | [] => some ⟨dateSec, 0, none⟩
            | 'T' :: tr =>
              (match parseNDigits 2 tr with
               | some (hh, r4) =>
                 if hh ≤ 23 then
                   match r4 with
                   | ':' :: r5 =>
                     (match parseNDigits 2 r5 with
                      | some (mi, r6) =>
                        if mi ≤ 59 then
                          match r6 with
                          | ':' :: r7 =>
                            (match parseNDigits 2 r7 with
                             | some (ss, r8) =>
                               if ss ≤ 59 then
                                 match r8 with
                                 | '.' :: r9 =>
                                   (match parseFrac r9 with
                                    | some (us, r10) =>
                                      (parseOffset r10).map (fun tz =>
                                        ⟨dateSec + 3600 * hh + 60 * mi + ss, us, tz⟩)
                                    | none => none)
                                 | _ =>
                                   (parseOffset r8).map (fun tz =>
                                     ⟨dateSec + 3600 * hh + 60 * mi + ss, 0, tz⟩)
                               else none
                             | none => none)
                          | _ =>
                            (parseOffset r6).map (fun tz =>
                              ⟨dateSec + 3600 * hh + 60 * mi, 0, tz⟩)
                        else none
                      | none => none)
                   | _ =>
                     (parseOffset r4).map (fun tz => ⟨dateSec + 3600 * hh, 0, tz⟩)
                 else none
               | none => none)
            | _ => none
          else none
        | none => none)
     | _ => none)
  | _ => none

/-- `parse_time_string` (src/reeve/utils/time_parser.py lines 13-78).
`nowSec` is `datetime.now(timezone.utc)` in epoch seconds; `.error`
models the raised `ValueError`.  Branch order follows the source: the
ISO branch fires whenever the stripped input contains `T` or ends in
`Z` / `+00:00` (before any lowercasing); then the `now` keyword; then
`in <N> minute|hour|day` with Python `int()` and `rstrip("s")`. -/
def parse_time_string (nowSec : Int) (s : String) : Except String PyDateTime :=
  let t := pyStripString s
  if pyContains t 'T' || pyEndsWith t "Z" || pyEndsWith t "+00:00" then
    match fromisoformat (pyReplaceZ t) with
    | some d => .ok d
    | none => .error "fromisoformat"
  else
    let lower := pyLower t
    if lower = "now" then .ok ⟨nowSec, 0, some 0⟩
    else
      if pyStartsWith lower "in " then
        match pySplit (pyDropLeft lower 3) with
        | [p0, p1] =>
          (match pyInt p0 with
           | none => .error "Invalid amount"
           | some amount =>
             let unit := rstripS p1
             if unit = "minute" then .ok ⟨nowSec + 60 * amount, 0, some 0⟩
             else if unit = "hour" then .ok ⟨nowSec + 3600 * amount, 0, some 0⟩
             else if unit = "day" then .ok ⟨nowSec + 86400 * amount, 0, some 0⟩
             else .error "Could not parse time string")
        | _ => .error "Could not parse time string"
      else .error "Could not parse time string"

/-- Modelled from the spec: FastAPI's `HTTPBearer` security dependency
(`security = HTTPBearer()`, api/server.py line 171) is library code, not
part of `src/`; its contract is pinned by the spec (§7: "missing bearer →
401") and tests/test_api_server.py (401 for a missing header and for a
non-Bearer scheme).  The header is split at the first space into scheme
and credentials; a missing header, empty credentials, or a scheme other
than case-insensitive `bearer` is rejected with 401. -/
def httpBearer (authHeader : Option String) : Except Nat String :=
  match authHeader with
  | none => .error 401
  | some h =>
    let scheme := String.mk (h.data.takeWhile (fun c => c ≠ ' '))
    let credentials := String.mk ((h.data.dropWhile (fun c => c ≠ ' ')).drop 1)
    if credentials.isEmpty || !(pyLower scheme == "bearer") then .error 401
    else .ok credentials

/-- `verify_bearer_token` (api/server.py lines 185-212): 500 when no API
token is configured (Python truthiness: `None` or empty), 403 when the
presented credentials differ from it. -/
def verifyBearerToken (configToken : Option String) (credentials : String) :
    Except Nat Unit :=
  match configToken with
  | none => .error 500
  | some tok =>
    if tok.isEmpty then .error 500
    else if credentials ≠ tok then .error 403
    else .ok ()

/-- The authentication outcome of one request against the route table of
`create_app` (api/server.py lines 246-, 330-341): `/api/health` carries
no `verify_token` dependency; every other `/api` route runs `HTTPBearer`
then `verify_bearer_token`.  200 stands for "authentication passed (or
not required)". -/
def requestAuthStatus (configToken : Option String) (path : String)
    (authHeader : Option String) : Nat :=
  if path = "/api/health" then 200
  else
    match httpBearer authHeader with
    | .error s => s
    | .ok credentials =>
      match verifyBearerToken configToken credentials with
      | .error s => s
      | .ok _ => 200

/-- Row update function used by `updatePulse`, on bare lists. -/
def updateRow (pulseId : Nat) (f : Pulse → Pulse) (p : Pulse) : Pulse :=
  if p.id == pulseId then f p else p

/-- A minimal pulse record used to build concrete store states in the
theorems below. -/
def samplePulse (i : Nat) (stat : PulseStatus) : Pulse :=
  { id := i
    scheduled_at := 0
    prompt := "check email"
    priority := .normal
    session_id := none
    sticky_notes := none
    tags := none
    created_by := "system"
    max_retries := 3
    retry_count := 0
    status := stat
    created_at := 0
    executed_at := none
    execution_duration_ms := none
    error_message := none }

theorem updatePulse_pulses (st : Store) (pulseId : Nat) (f : Pulse → Pulse) :
    (updatePulse st pulseId f).pulses = st.pulses.map (updateRow pulseId f) := rfl

theorem updateRow_id (pulseId : Nat) (f : Pulse → Pulse) (hf : ∀ q, (f q).id = q.id)
    (p : Pulse) : (updateRow pulseId f p).id = p.id := by
  unfold updateRow
  split <;> simp [hf]

theorem find?_updateRow_self (pulseId : Nat) (f : Pulse → Pulse)
    (hf : ∀ q, (f q).id = q.id) (l : List Pulse) :
    (l.map (updateRow pulseId f)).find? (fun p => p.id == pulseId) =
      (l.find? (fun p => p.id == pulseId)).map f := by
  induction l with
  | nil => rfl
  | cons a t ih =>
    simp only [List.map_cons]
    by_cases h : a.id = pulseId
    · rw [List.find?_cons_of_pos _ (by simp [updateRow_id pulseId f hf, h]),
        List.find?_cons_of_pos _ (by simp [h])]
      simp [updateRow, h]
    · rw [List.find?_cons_of_neg _ (by simp [updateRow_id pulseId f hf, h]),
        List.find?_cons_of_neg _ (by simp [h])]
      exact ih

theorem find?_updateRow_ne (pulseId otherId : Nat) (f : Pulse → Pulse)
    (hf : ∀ q, (f q).id = q.id) (hne : pulseId ≠ otherId) (l : List Pulse) :
    (l.map (updateRow pulseId f)).find? (fun p => p.id == otherId) =
      l.find? (fun p => p.id == otherId) := by
  induction l with
  | nil => rfl
  | cons a t ih =>
    simp only [List.map_cons]
    by_cases h : a.id = otherId
    · rw [List.find?_cons_of_pos _ (by simp [updateRow_id pulseId f hf, h]),
        List.find?_cons_of_pos _ (by simp [h])]
      have : a.id ≠ pulseId := by
        intro hc
        exact hne (hc ▸ h)
      simp [updateRow, this]
    · rw [List.find?_cons_of_neg _ (by simp [updateRow_id pulseId f hf, h]),
        List.find?_cons_of_neg _ (by simp [h])]
      exact ih

/-- Updating the row with key `pulseId` through an id-preserving function
commutes with looking it up. -/
theorem getPulse_updatePulse_self (st : Store) (pulseId : Nat) (f : Pulse → Pulse)
    (hf : ∀ q, (f q).id = q.id) :
    getPulse (updatePulse st pulseId f) pulseId = (getPulse st pulseId).map f :=
  find?_updateRow_self pulseId f hf st.pulses

/-- A key not present in the list is not found. -/
theorem getPulse_eq_none (st : Store) (n : Nat) (h : ∀ q ∈ st.pulses, q.id ≠ n) :
    getPulse st n = none := by
  unfold getPulse
  rw [List.find?_eq_none]
  intro x hx
  simp [h x hx]

/-- A found pulse is a member of the store and carries the looked-up id. -/
theorem getPulse_mem_and_id (st : Store) (pulseId : Nat) (p : Pulse)
    (hp : getPulse st pulseId = some p) : p ∈ st.pulses ∧ p.id = pulseId := by
  refine ⟨List.mem_of_find?_eq_some hp, ?_⟩
  simpa using List.find?_some hp

/-- `mark_failed` always rewrites the (existing) parent pulse to FAILED
with the error message and `executed_at = now`, in both retry branches. -/
theorem getPulse_markFailed_parent (st : Store) (now : Int) (pulseId : Nat) (msg : String)
    (b : Bool) (p : Pulse) (hp : getPulse st pulseId = some p) :
    getPulse (markFailed st now pulseId msg b).2 pulseId =
      some { p with status := .failed, error_message := some msg,
                    executed_at := some now } := by
  have hf : ∀ q : Pulse,
      ({ q with status := PulseStatus.failed, error_message := some msg,
                executed_at := some now } : Pulse).id = q.id := fun _ => rfl
  by_cases hr : (b = true) ∧ p.retry_count < p.max_retries
  · have hsome :
        (markFailed st now pulseId msg b).2 =
          { pulses :=
              (updatePulse st pulseId (fun q =>
                { q with status := .failed, error_message := some msg,
                         executed_at := some now })).pulses ++
              [retryOf p now st.nextId]
            nextId := st.nextId + 1 } := by
      simp [markFailed, hp, hr.1, hr.2]
    rw [hsome]
    show ((updatePulse st pulseId _).pulses ++ _).find? _ = _
    rw [List.find?_append, updatePulse_pulses, find?_updateRow_self _ _ hf]
    rw [show getPulse st pulseId = st.pulses.find? (fun q => q.id == pulseId) from rfl] at hp
    rw [hp]
    rfl
  · have hnone :
        (markFailed st now pulseId msg b).2 =
          updatePulse st pulseId (fun q =>
            { q with status := .failed, error_message := some msg,
                     executed_at := some now }) := by
      rcases Bool.eq_false_or_eq_true b with hb | hb
      · have : ¬ p.retry_count < p.max_retries := fun hlt => hr ⟨hb, hlt⟩
        simp [markFailed, hp, hb, this]
      · simp [markFailed, hp, hb]
    rw [hnone, getPulse_updatePulse_self st pulseId _ hf, hp]
    rfl

/-- C1: for an existing pulse, `mark_failed(id, msg, should_retry=true)`
marks it FAILED with the error message and `executed_at = now`; when the
retry budget is unspent it inserts exactly one new PENDING pulse with
backoff `2^retry_count` minutes and the inherited fields, returning its
(fresh) id, and otherwise it inserts nothing and returns `none`. -/
theorem mark_failed_contract (st : Store) (now : Int) (pulseId : Nat) (msg : String)
    (p : Pulse) (hwf : st.WF) (hp : getPulse st pulseId = some p) :
    (getPulse (markFailed st now pulseId msg true).2 pulseId =
        some { p with status := .failed, error_message := some msg,
                      executed_at := some now }) ∧
    (p.retry_count < p.max_retries →
      (markFailed st now pulseId msg true).1 = some st.nextId ∧
      (∀ q ∈ st.pulses, q.id ≠ st.nextId) ∧
      (markFailed st now pulseId msg true).2.pulses.length = st.pulses.length + 1 ∧
      ∃ q, getPulse (markFailed st now pulseId msg true).2 st.nextId = some q ∧
        q.status = .pending ∧
        q.scheduled_at = now + 60 * 2 ^ p.retry_count ∧
        q.retry_count = p.retry_count + 1 ∧
        q.prompt = p.prompt ∧ q.priority = p.priority ∧ q.session_id = p.session_id ∧
        q.sticky_notes = p.sticky_notes ∧ q.tags = p.tags ∧
        q.max_retries = p.max_retries) ∧
    (p.max_retries ≤ p.retry_count →
      (markFailed st now pulseId msg true).1 = none ∧
      (markFailed st now pulseId msg true).2.pulses.length = st.pulses.length) := by
  have hf : ∀ q : Pulse,
      ({ q with status := PulseStatus.failed, error_message := some msg,
                executed_at := some now } : Pulse).id = q.id := fun _ => rfl
  have hnew : ∀ q ∈ st.pulses, q.id ≠ st.nextId := fun q hq =>
    Nat.ne_of_lt (hwf q hq)
  by_cases hr : p.retry_count < p.max_retries
  · have hsome :
        markFailed st now pulseId msg true =
          (some st.nextId,
            { pulses :=
                (updatePulse st pulseId (fun q =>
                  { q with status := .failed, error_message := some msg,
                           executed_at := some now })).pulses ++
                [retryOf p now st.nextId]
              nextId := st.nextId + 1 }) := by
      simp [markFailed, hp, hr]
    refine ⟨?_, fun _ => ⟨?_, hnew, ?_, ?_⟩, fun hge => absurd hr (by omega)⟩
    · rw [hsome]
      show ((updatePulse st pulseId _).pulses ++ _).find? _ = _
      rw [List.find?_append, updatePulse_pulses, find?_updateRow_self _ _ hf]
      rw [show getPulse st pulseId = st.pulses.find? (fun q => q.id == pulseId) from rfl] at hp
      rw [hp]
      rfl
    · rw [hsome]
    · rw [hsome]
      simp [updatePulse_pulses]
    · have hq : getPulse (markFailed st now pulseId msg true).2 st.nextId =
          some (retryOf p now st.nextId) := by
        rw [hsome]
        show ((updatePulse st pulseId _).pulses ++ _).find? _ = _
        rw [List.find?_append, updatePulse_pulses, find?_updateRow_ne _ _ _ hf]
        · rw [List.find?_eq_none.mpr (by intro x hx; simp [hnew x hx])]
          simp [retryOf]
        · intro hc
          have := (getPulse_mem_and_id st pulseId p hp).1
          exact hnew p this ((getPulse_mem_and_id st pulseId p hp).2.trans hc)
      exact ⟨retryOf p now st.nextId, hq, rfl, rfl, rfl, rfl, rfl, rfl, rfl, rfl, rfl⟩
  · have hnone :
        markFailed st now pulseId msg true =
          (none,
            updatePulse st pulseId (fun q =>
              { q with status := .failed, error_message := some msg,
                       executed_at := some now })) := by
      simp [markFailed, hp, hr]
    refine ⟨?_, fun hlt => absurd hlt hr, fun _ => ⟨by rw [hnone], ?_⟩⟩
    · rw [hnone, getPulse_updatePulse_self st pulseId _ hf, hp]
      rfl
    · rw [hnone]
      simp [updatePulse_pulses]

/-- Witness for C1: a concrete PROCESSING pulse with retry budget left. -/
theorem mark_failed_contract_witness :
    (Store.mk [samplePulse 1 .processing] 2).WF ∧
    getPulse (Store.mk [samplePulse 1 .processing] 2) 1 = some (samplePulse 1 .processing) ∧
    ((getPulse (markFailed (Store.mk [samplePulse 1 .processing] 2) 100 1 "boom" true).2 1 =
        some { (samplePulse 1 .processing) with
                 status := .failed,
                 error_message := some "boom",
                 executed_at := some (100 : Int) }) ∧
    ((samplePulse 1 .processing).retry_count < (samplePulse 1 .processing).max_retries →
      (markFailed (Store.mk [samplePulse 1 .processing] 2) 100 1 "boom" true).1 = some 2 ∧
      (∀ q ∈ (Store.mk [samplePulse 1 .processing] 2).pulses, q.id ≠ 2) ∧
      (markFailed (Store.mk [samplePulse 1 .processing] 2) 100 1 "boom" true).2.pulses.length =
        (Store.mk [samplePulse 1 .processing] 2).pulses.length + 1 ∧
      ∃ q, getPulse (markFailed (Store.mk [samplePulse 1 .processing] 2) 100 1 "boom" true).2 2 =
          some q ∧
        q.status = .pending ∧
        q.scheduled_at = 100 + 60 * 2 ^ (samplePulse 1 .processing).retry_count ∧
        q.retry_count = (samplePulse 1 .processing).retry_count + 1 ∧
        q.prompt = (samplePulse 1 .processing).prompt ∧
        q.priority = (samplePulse 1 .processing).priority ∧
        q.session_id = (samplePulse 1 .processing).session_id ∧
        q.sticky_notes = (samplePulse 1 .processing).sticky_notes ∧
        q.tags = (samplePulse 1 .processing).tags ∧
        q.max_retries = (samplePulse 1 .processing).max_retries) ∧
    ((samplePulse 1 .processing).max_retries ≤ (samplePulse 1 .processing).retry_count →
      (markFailed (Store.mk [samplePulse 1 .processing] 2) 100 1 "boom" true).1 = none ∧
      (markFailed (Store.mk [samplePulse 1 .processing] 2) 100 1 "boom" true).2.pulses.length =
        (Store.mk [samplePulse 1 .processing] 2).pulses.length)) :=
  ⟨by decide, rfl,
    mark_failed_contract (Store.mk [samplePulse 1 .processing] 2) 100 1 "boom"
      (samplePulse 1 .processing) (by decide) rfl⟩

/-- C3 counterexample: terminal states are not terminal.  In the store
holding one COMPLETED pulse (id 1), `mark_failed(1, "boom",
should_retry=false)` rewrites its status to FAILED, and in the store
holding one CANCELLED pulse, `mark_completed(1, 5)` rewrites its status
to COMPLETED — both operations ignore the current status entirely. -/
theorem terminal_states_mutable_cex :
    (getPulse (Store.mk [samplePulse 1 .completed] 2) 1).map Pulse.status =
      some .completed ∧
    (getPulse (markFailed (Store.mk [samplePulse 1 .completed] 2) 0 1 "boom" false).2 1).map
        Pulse.status = some .failed ∧
    (getPulse (Store.mk [samplePulse 1 .cancelled] 2) 1).map Pulse.status =
      some .cancelled ∧
    (getPulse (markCompleted (Store.mk [samplePulse 1 .cancelled] 2) 0 1 5) 1).map
        Pulse.status = some .completed := by
  refine ⟨rfl, ?_, rfl, ?_⟩ <;> rfl

/-- C3 amended: `mark_processing`, `cancel_pulse`, `reschedule_pulse` act
only on PENDING pulses (returning false otherwise), PENDING moves to
PROCESSING / CANCELLED through them; but `mark_completed` and
`mark_failed` set COMPLETED / FAILED unconditionally on any existing
pulse, so the terminal statuses are not terminal. -/
theorem status_transition_guards (st : Store) (now newAt : Int) (pulseId : Nat)
    (durationMs : Nat) (msg : String) (b : Bool) (p : Pulse)
    (hp : getPulse st pulseId = some p) :
    (p.status ≠ .pending →
      markProcessing st pulseId = (false, st) ∧
      cancelPulse st pulseId = (false, st) ∧
      reschedulePulse st pulseId newAt = (false, st)) ∧
    (p.status = .pending →
      (markProcessing st pulseId).1 = true ∧
      (getPulse (markProcessing st pulseId).2 pulseId).map Pulse.status =
        some .processing ∧
      (cancelPulse st pulseId).1 = true ∧
      (getPulse (cancelPulse st pulseId).2 pulseId).map Pulse.status =
        some .cancelled) ∧
    (getPulse (markCompleted st now pulseId durationMs) pulseId).map Pulse.status =
      some .completed ∧
    (getPulse (markFailed st now pulseId msg b).2 pulseId).map Pulse.status =
      some .failed := by
  refine ⟨fun hne => ?_, fun hpend => ?_, ?_, ?_⟩
  · refine ⟨?_, ?_, ?_⟩ <;> simp [markProcessing, cancelPulse, reschedulePulse, hp, hne]
  · have h1 : markProcessing st pulseId =
        (true, updatePulse st pulseId (fun q => { q with status := .processing })) := by
      simp [markProcessing, hp, hpend]
    have h2 : cancelPulse st pulseId =
        (true, updatePulse st pulseId (fun q => { q with status := .cancelled })) := by
      simp [cancelPulse, hp, hpend]
    refine ⟨by rw [h1], ?_, by rw [h2], ?_⟩
    · rw [h1,
        getPulse_updatePulse_self st pulseId
          (fun q => { q with status := .processing }) (fun _ => rfl), hp]
      rfl
    · rw [h2,
        getPulse_updatePulse_self st pulseId
          (fun q => { q with status := .cancelled }) (fun _ => rfl), hp]
      rfl
  · have h3 : markCompleted st now pulseId durationMs =
        updatePulse st pulseId (fun q =>
          { q with status := .completed, executed_at := some now,
                   execution_duration_ms := some durationMs }) := by
      simp [markCompleted, hp]
    rw [h3,
      getPulse_updatePulse_self st pulseId
        (fun q => { q with status := .completed, executed_at := some now,
                           execution_duration_ms := some durationMs }) (fun _ => rfl), hp]
    rfl
  · rw [getPulse_markFailed_parent st now pulseId msg b p hp]
    rfl

/-- Witness for the amended C3, at a PENDING pulse. -/
theorem status_transition_guards_witness :
    getPulse (Store.mk [samplePulse 1 .pending] 2) 1 = some (samplePulse 1 .pending) ∧
    (((samplePulse 1 .pending).status ≠ .pending →
      markProcessing (Store.mk [samplePulse 1 .pending] 2) 1 =
        (false, Store.mk [samplePulse 1 .pending] 2) ∧
      cancelPulse (Store.mk [samplePulse 1 .pending] 2) 1 =
        (false, Store.mk [samplePulse 1 .pending] 2) ∧
      reschedulePulse (Store.mk [samplePulse 1 .pending] 2) 1 7 =
        (false, Store.mk [samplePulse 1 .pending] 2)) ∧
    ((samplePulse 1 .pending).status = .pending →
      (markProcessing (Store.mk [samplePulse 1 .pending] 2) 1).1 = true ∧
      (getPulse (markProcessing (Store.mk [samplePulse 1 .pending] 2) 1).2 1).map
          Pulse.status = some .processing ∧
      (cancelPulse (Store.mk [samplePulse 1 .pending] 2) 1).1 = true ∧
      (getPulse (cancelPulse (Store.mk [samplePulse 1 .pending] 2) 1).2 1).map
          Pulse.status = some .cancelled) ∧
    (getPulse (markCompleted (Store.mk [samplePulse 1 .pending] 2) 3 1 9) 1).map
        Pulse.status = some .completed ∧
    (getPulse (markFailed (Store.mk [samplePulse 1 .pending] 2) 3 1 "err" false).2 1).map
        Pulse.status = some .failed) :=
  ⟨rfl, status_transition_guards (Store.mk [samplePulse 1 .pending] 2) 3 7 1 9 "err" false
    (samplePulse 1 .pending) rfl⟩

/-- C10: terminal-transition operations treat a missing id as a silent
no-op: `mark_completed` leaves the store unchanged, and `mark_failed`
returns `none`, inserts nothing, and leaves the store unchanged. -/
theorem missing_pulse_noop (st : Store) (now : Int) (pulseId : Nat) (durationMs : Nat)
    (msg : String) (shouldRetry : Bool) (h : getPulse st pulseId = none) :
    markCompleted st now pulseId durationMs = st ∧
    markFailed st now pulseId msg shouldRetry = (none, st) := by
  constructor
  · simp [markCompleted, h]
  · simp [markFailed, h]

/-- C2 counterexample: the ORDER BY of `get_due_pulses` does not include
`id`, so for two PENDING pulses that tie on priority and `scheduled_at`
the query may return them in either order; the order `[id 2, id 1]` is an
admissible result, yet the spec's claimed (priority, scheduled_at, id)
ordering demands `[id 1, id 2]`. -/
theorem get_due_id_tiebreak_cex :
    getDueResult (Store.mk [samplePulse 1 .pending, samplePulse 2 .pending] 3) 0 10
      [samplePulse 2 .pending, samplePulse 1 .pending] ∧
    [samplePulse 2 .pending, samplePulse 1 .pending] ≠
      specDue (Store.mk [samplePulse 1 .pending, samplePulse 2 .pending] 3) 0 10 := by
  refine ⟨⟨[samplePulse 2 .pending, samplePulse 1 .pending], by decide, by decide, rfl⟩, ?_⟩
  decide

/-- C2 amended: every admissible result of `get_due_pulses(limit)`
consists only of PENDING pulses with `scheduled_at ≤ now` (a pulse
scheduled exactly at `now` is due), has length `min limit (#due rows)`,
is sorted by (priority CASE value, `scheduled_at`), and — whenever the due
rows fit within `limit` — is a permutation of exactly the due rows; the
relative order of rows that tie on both sort keys is not specified. -/
theorem get_due_guarantees (st : Store) (now : Int) (limit : Nat) (res : List Pulse)
    (h : getDueResult st now limit res) :
    (∀ p ∈ res, p.status = PulseStatus.pending ∧ p.scheduled_at ≤ now ∧ p ∈ st.pulses) ∧
    res.length = min limit (dueRows st now).length ∧
    res.Sorted dueKeyLE ∧
    ((dueRows st now).length ≤ limit →
      res.Perm (dueRows st now) ∧
      ∀ p ∈ st.pulses, p.status = PulseStatus.pending → p.scheduled_at ≤ now →
        p ∈ res) := by
  obtain ⟨l, hperm, hsort, hres⟩ := h
  subst hres
  refine ⟨?_, ?_, ?_, ?_⟩
  · intro p hp
    have hl : p ∈ l := List.mem_of_mem_take hp
    have hd : p ∈ dueRows st now := hperm.mem_iff.mp hl
    have hm := List.mem_filter.mp hd
    have h2 := hm.2
    simp only [isDue, Bool.and_eq_true, decide_eq_true_eq] at h2
    exact ⟨h2.2, h2.1, hm.1⟩
  · rw [List.length_take, hperm.length_eq]
  · exact List.Pairwise.sublist (List.take_sublist _ _) hsort
  · intro hle
    have hlen : l.length ≤ limit := by rw [hperm.length_eq]; exact hle
    rw [List.take_of_length_le hlen]
    refine ⟨hperm, fun p hp hst hsc => ?_⟩
    exact hperm.mem_iff.mpr (List.mem_filter.mpr ⟨hp, by simp [isDue, hst, hsc]⟩)

/-- Witness for the amended C2, with a single due pulse. -/
theorem get_due_guarantees_witness :
    getDueResult (Store.mk [samplePulse 1 .pending] 2) 0 10 [samplePulse 1 .pending] ∧
    ((∀ p ∈ [samplePulse 1 .pending], p.status = PulseStatus.pending ∧
        p.scheduled_at ≤ 0 ∧ p ∈ (Store.mk [samplePulse 1 .pending] 2).pulses) ∧
      [samplePulse 1 .pending].length =
        min 10 (dueRows (Store.mk [samplePulse 1 .pending] 2) 0).length ∧
      List.Sorted dueKeyLE [samplePulse 1 .pending] ∧
      ((dueRows (Store.mk [samplePulse 1 .pending] 2) 0).length ≤ 10 →
        [samplePulse 1 .pending].Perm (dueRows (Store.mk [samplePulse 1 .pending] 2) 0) ∧
        ∀ p ∈ (Store.mk [samplePulse 1 .pending] 2).pulses,
          p.status = PulseStatus.pending → p.scheduled_at ≤ 0 →
            p ∈ [samplePulse 1 .pending])) :=
  ⟨⟨[samplePulse 1 .pending], by decide, by decide, rfl⟩,
    get_due_guarantees (Store.mk [samplePulse 1 .pending] 2) 0 10 [samplePulse 1 .pending]
      ⟨[samplePulse 1 .pending], by decide, by decide, rfl⟩⟩

/-- C8 counterexample: the empty string is a key for which the cooldown
never engages — `if cooldown_key` is false for `""` — so two alerts with
key `""` ten seconds apart (S = 1800) both deliver, where the claim
demands that the second return false. -/
theorem alert_empty_key_cex :
    ((10 : Int) - 0 < 1800) ∧
    (alert (fun _ => true) ⟨[]⟩ 0 "disk full" (some "") 1800).1 = true ∧
    (alert (fun _ => true)
        (alert (fun _ => true) ⟨[]⟩ 0 "disk full" (some "") 1800).2
        10 "disk full" (some "") 1800).1 = true :=
  ⟨by decide, rfl, rfl⟩

/-- C8 amended (nonempty keys): after a delivered alert with key `K` at
time `t1`, any alert within `cooldown_seconds` whose key sanitizes to the
same name is suppressed (returns false, state untouched), and once the
cooldown has elapsed the next call attempts delivery again, returning the
backend's verdict.  `alert` is a total function (never raises). -/
theorem alert_cooldown_contract (backend : String → Bool) (stt : SentinelState)
    (t1 t2 : Int) (msg1 msg2 : String) (K K' : String) (S : Int)
    (hK : K ≠ "") (hK' : K' ≠ "") (hsan : sanitizeKey K' = sanitizeKey K)
    (hexp : cooldownExpired stt t1 K S = true) (hb : backend msg1 = true) :
    (alert backend stt t1 msg1 (some K) S).1 = true ∧
    (t2 - t1 < S →
      alert backend (alert backend stt t1 msg1 (some K) S).2 t2 msg2 (some K') S =
        (false, (alert backend stt t1 msg1 (some K) S).2)) ∧
    (S ≤ t2 - t1 →
      (alert backend (alert backend stt t1 msg1 (some K) S).2 t2 msg2 (some K') S).1 =
        backend msg2) := by
  have hKe : K.isEmpty = false := by
    rcases Bool.eq_false_or_eq_true K.isEmpty with h | h
    · exact absurd ((String.isEmpty_iff K).mp h) hK
    · exact h
  have hK'e : K'.isEmpty = false := by
    rcases Bool.eq_false_or_eq_true K'.isEmpty with h | h
    · exact absurd ((String.isEmpty_iff K').mp h) hK'
    · exact h
  have h1 : alert backend stt t1 msg1 (some K) S = (true, touchCooldown stt t1 K) := by
    simp [alert, hKe, hexp, hb]
  have hc : cooldownExpired (touchCooldown stt t1 K) t2 K' S = decide (S ≤ t2 - t1) := by
    simp [cooldownExpired, touchCooldown, hsan]
  refine ⟨by rw [h1], fun hlt => ?_, fun hge => ?_⟩
  · have : cooldownExpired (touchCooldown stt t1 K) t2 K' S = false := by
      rw [hc]
      simpa using not_le.mpr (by omega : t2 - t1 < S)
    rw [h1]
    simp [alert, hK'e, this]
  · have : cooldownExpired (touchCooldown stt t1 K) t2 K' S = true := by
      rw [hc]
      simpa using hge
    rw [h1]
    cases hbm : backend msg2 <;> simp [alert, hK'e, this, hbm]

/-- Witness for the amended C8: key `pulse_failed_42`, a 1800 s cooldown,
a second call 100 s later and a third situation 2000 s later. -/
theorem alert_cooldown_contract_witness :
    ("pulse_failed_42" ≠ "") ∧ sanitizeKey "pulse_failed_42" = sanitizeKey "pulse_failed_42" ∧
    cooldownExpired ⟨[]⟩ 0 "pulse_failed_42" 1800 = true ∧
    ((alert (fun _ => true) ⟨[]⟩ 0 "m1" (some "pulse_failed_42") 1800).1 = true ∧
      ((100 : Int) - 0 < 1800 →
        alert (fun _ => true) (alert (fun _ => true) ⟨[]⟩ 0 "m1"
            (some "pulse_failed_42") 1800).2 100 "m2" (some "pulse_failed_42") 1800 =
          (false, (alert (fun _ => true) ⟨[]⟩ 0 "m1" (some "pulse_failed_42") 1800).2)) ∧
      ((1800 : Int) ≤ 100 - 0 →
        (alert (fun _ => true) (alert (fun _ => true) ⟨[]⟩ 0 "m1"
            (some "pulse_failed_42") 1800).2 100 "m2" (some "pulse_failed_42") 1800).1 =
          (fun _ => true) "m2")) :=
  ⟨by decide, rfl, rfl,
    alert_cooldown_contract (fun _ => true) ⟨[]⟩ 0 100 "m1" "m2"
      "pulse_failed_42" "pulse_failed_42" 1800 (by decide) (by decide) rfl rfl rfl⟩

/-- C4: evaluation of the daemon's execution task at the failing input.
Pulse 42 is PROCESSING with `retry_count = max_retries = 3`; its
execution raises "Hapi crashed".  `mark_failed` returns `none` (budget
exhausted), the pulse ends FAILED — and the task performs no Sentinel
invocation at all, although `tests/test_sentinel_daemon.py` requires
`send_alert(..., cooldown_key="pulse_failed_42")` exactly here. -/
theorem daemon_exhausted_retry_no_sentinel :
    (daemonExecutePulse
        (Store.mk [{ (samplePulse 42 .processing) with retry_count := 3 }] 43)
        0 42 (.error "Hapi crashed")).2.1 = none ∧
    (getPulse (daemonExecutePulse
        (Store.mk [{ (samplePulse 42 .processing) with retry_count := 3 }] 43)
        0 42 (.error "Hapi crashed")).1 42).map Pulse.status = some .failed ∧
    (daemonExecutePulse
        (Store.mk [{ (samplePulse 42 .processing) with retry_count := 3 }] 43)
        0 42 (.error "Hapi crashed")).2.2 = [] :=
  ⟨rfl, rfl, rfl⟩

/-- C5 counterexample: the executor builds `--output-format json` with no
`--verbose`; the spec's claimed `stream-json --verbose` argument list is a
different command. -/
theorem executor_cmd_cex :
    buildCmd "hapi" (some "sess-1") "do the thing" ≠
      specCmd "hapi" (some "sess-1") "do the thing" := by
  decide

/-- C5 amended: the subprocess argument list is `<agent_cmd> --print
--output-format json`, then `--resume <sid>` exactly when a (nonempty)
session id is given, then the prompt; a timeout or a non-zero exit raises
(no success); every success has exit code 0 without timeout and carries
the raw stdout/stderr; on success the stdout is parsed as a single JSON
document by `json.loads` — not by the stream parser — and a string
`session_id` entry becomes the reported session id. -/
theorem executor_contract (hapi prompt sid : String) (hsid : sid ≠ "")
    (stdoutStr stderrStr : String) (rc : Int) :
    buildCmd hapi none prompt = [hapi, "--print", "--output-format", "json", prompt] ∧
    buildCmd hapi (some sid) prompt =
      [hapi, "--print", "--output-format", "json", "--resume", sid, prompt] ∧
    executeOutcome true rc stdoutStr stderrStr = .error "timed out" ∧
    (rc ≠ 0 → executeOutcome false rc stdoutStr stderrStr = .error "non-zero exit") ∧
    (∀ r, executeOutcome false rc stdoutStr stderrStr = .ok r →
      rc = 0 ∧ r.timed_out = false ∧ r.return_code = 0 ∧
      r.stdout = stdoutStr ∧ r.stderr = stderrStr) ∧
    (∀ fields s, loads stdoutStr = some (Json.obj fields) →
      jsonGet fields "session_id" = some (Json.str s) →
      executeOutcome false 0 stdoutStr stderrStr =
        .ok ⟨stdoutStr, stderrStr, 0, false, some s⟩) := by
  have hse : sid.isEmpty = false := by
    rcases Bool.eq_false_or_eq_true sid.isEmpty with h | h
    · exact absurd ((String.isEmpty_iff sid).mp h) hsid
    · exact h
  refine ⟨rfl, by simp [buildCmd, hse], by simp [executeOutcome], fun hrc => ?_,
    fun r h => ?_, fun fields s h1 h2 => ?_⟩
  · simp [executeOutcome, hrc]
  · by_cases hrc : rc = 0
    · subst hrc
      unfold executeOutcome at h
      simp only [if_false, Bool.false_eq_true, ne_eq, not_true_eq_false,
        reduceIte] at h
      refine ⟨rfl, ?_⟩
      split at h
      · cases h
        exact ⟨rfl, rfl, rfl, rfl⟩
      · split at h
        · cases h
          exact ⟨rfl, rfl, rfl, rfl⟩
        · cases h
          exact ⟨rfl, rfl, rfl, rfl⟩
        · cases h
          exact ⟨rfl, rfl, rfl, rfl⟩
        · cases h
      · cases h
    · simp [executeOutcome, hrc] at h
  · simp [executeOutcome, h1, h2]

/-- Witness for the amended C5, with a resumed session and a concrete
JSON stdout. -/
theorem executor_contract_witness :
    ("sess-1" ≠ "") ∧
    (buildCmd "hapi" none "do it" = ["hapi", "--print", "--output-format", "json", "do it"] ∧
      buildCmd "hapi" (some "sess-1") "do it" =
        ["hapi", "--print", "--output-format", "json", "--resume", "sess-1", "do it"] ∧
      executeOutcome true 5 "\x7b\"session_id\": \"abc\"\x7d" "" = .error "timed out" ∧
      ((5 : Int) ≠ 0 →
        executeOutcome false 5 "\x7b\"session_id\": \"abc\"\x7d" "" =
          .error "non-zero exit") ∧
      (∀ r, executeOutcome false 5 "\x7b\"session_id\": \"abc\"\x7d" "" = .ok r →
        (5 : Int) = 0 ∧ r.timed_out = false ∧ r.return_code = 0 ∧
        r.stdout = "\x7b\"session_id\": \"abc\"\x7d" ∧ r.stderr = "") ∧
      (∀ fields s,
        loads "\x7b\"session_id\": \"abc\"\x7d" = some (Json.obj fields) →
        jsonGet fields "session_id" = some (Json.str s) →
        executeOutcome false 0 "\x7b\"session_id\": \"abc\"\x7d" "" =
          .ok ⟨"\x7b\"session_id\": \"abc\"\x7d", "", 0, false, some s⟩)) :=
  ⟨by decide,
    executor_contract "hapi" "do it" "sess-1" (by decide)
      "\x7b\"session_id\": \"abc\"\x7d" "" 5⟩

theorem isPyWs_braceOpen : isPyWs braceOpen = false := by decide

theorem mem_dropWhile_of_pred_false {p : Char → Bool} {b : Char} (hb : p b = false) :
    ∀ {l : List Char}, b ∈ l → b ∈ l.dropWhile p := by
  intro l hl
  induction l with
  | nil => cases hl
  | cons c t ih =>
    rw [List.dropWhile_cons]
    by_cases hc : p c = true
    · rw [if_pos hc]
      rcases List.mem_cons.mp hl with h | h
      · rw [← h] at hc
        rw [hb] at hc
        cases hc
      · exact ih h
    · rw [if_neg hc]
      exact hl

theorem mem_trimTail {b : Char} (hb : isPyWs b = false) {l : List Char} (hl : b ∈ l) :
    b ∈ trimTail l := by
  unfold trimTail
  rw [List.mem_reverse]
  exact mem_dropWhile_of_pred_false hb (List.mem_reverse.mpr hl)

theorem mem_of_mem_trimTail {x : Char} {l : List Char} (h : x ∈ trimTail l) : x ∈ l := by
  unfold trimTail at h
  rw [List.mem_reverse] at h
  exact List.mem_reverse.mp ((List.dropWhile_sublist _).subset h)

theorem brace_mem_pyStrip {l : List Char} (hl : braceOpen ∈ l) :
    braceOpen ∈ pyStripChars l := by
  unfold pyStripChars
  exact mem_trimTail isPyWs_braceOpen (mem_dropWhile_of_pred_false isPyWs_braceOpen hl)

theorem mem_of_mem_pyStrip {x : Char} {l : List Char} (h : x ∈ pyStripChars l) : x ∈ l := by
  unfold pyStripChars at h
  exact (List.dropWhile_sublist _).subset (mem_of_mem_trimTail h)

theorem trimTail_cons (a : Char) (l : List Char) (ha : isPyWs a = false) :
    trimTail (a :: l) = a :: trimTail l := by
  unfold trimTail
  rw [show (a :: l).reverse = l.reverse ++ [a] by simp, List.dropWhile_append]
  by_cases h : (l.reverse.dropWhile isPyWs).isEmpty
  · rw [if_pos h, List.isEmpty_iff.mp h]
    simp [List.dropWhile_cons, ha]
  · rw [if_neg h]
    simp

theorem trimTail_append (u v : List Char) (hv : trimTail v ≠ []) :
    trimTail (u ++ v) = u ++ trimTail v := by
  unfold trimTail at *
  rw [List.reverse_append, List.dropWhile_append]
  have hne : (v.reverse.dropWhile isPyWs).isEmpty = false := by
    rw [List.isEmpty_eq_false]
    intro hc
    exact hv (by rw [hc]; rfl)
  rw [hne]
  simp

theorem dropToBrace_cons_ne (c : Char) (l : List Char) (hc : c ≠ braceOpen) :
    dropToBrace (c :: l) = dropToBrace l := by
  unfold dropToBrace
  rw [List.dropWhile_cons, if_pos (by simpa using hc)]

theorem dropToBrace_append_of_notMem (u v : List Char) (hu : braceOpen ∉ u) :
    dropToBrace (u ++ v) = dropToBrace v := by
  unfold dropToBrace
  rw [List.dropWhile_append]
  have : (u.dropWhile (fun c => c ≠ braceOpen)).isEmpty = true := by
    rw [List.isEmpty_iff, List.dropWhile_eq_nil_iff]
    intro x hx
    simp only [decide_eq_true_eq]
    intro hxe
    exact hu (hxe ▸ hx)
  rw [if_pos this]

theorem dropToBrace_eq_cons {l : List Char} (hl : braceOpen ∈ l) :
    ∃ w, dropToBrace l = braceOpen :: w := by
  induction l with
  | nil => cases hl
  | cons c t ih =>
    by_cases hc : c = braceOpen
    · subst hc
      refine ⟨t, ?_⟩
      unfold dropToBrace
      rw [List.dropWhile_cons]
      simp
    · rcases List.mem_cons.mp hl with h | h
      · exact absurd h.symm hc
      · obtain ⟨w, hw⟩ := ih h
        exact ⟨w, by rw [dropToBrace_cons_ne c t hc, hw]⟩

theorem dropToBrace_dropLead (l : List Char) :
    dropToBrace (l.dropWhile isPyWs) = dropToBrace l := by
  induction l with
  | nil => rfl
  | cons c t ih =>
    rw [List.dropWhile_cons]
    by_cases h : isPyWs c = true
    · have hcne : c ≠ braceOpen := by
        intro hc
        rw [hc, isPyWs_braceOpen] at h
        cases h
      rw [if_pos h, ih, dropToBrace_cons_ne c t hcne]
    · rw [if_neg h]

theorem dropToBrace_trimTail (l : List Char) (hl : braceOpen ∈ l) :
    dropToBrace (trimTail l) = trimTail (dropToBrace l) := by
  obtain ⟨w, hw⟩ := dropToBrace_eq_cons hl
  have htw : trimTail (dropToBrace l) = braceOpen :: trimTail w := by
    rw [hw, trimTail_cons _ _ isPyWs_braceOpen]
  have hnb : braceOpen ∉ l.takeWhile (fun c => c ≠ braceOpen) := by
    intro hx
    have := List.mem_takeWhile_imp hx
    simp at this
  have h1 : trimTail l =
      l.takeWhile (fun c => c ≠ braceOpen) ++ trimTail (dropToBrace l) := by
    conv_lhs =>
      rw [← List.takeWhile_append_dropWhile (fun c => decide (c ≠ braceOpen)) l]
    rw [show List.dropWhile (fun c => decide (c ≠ braceOpen)) l = dropToBrace l from rfl]
    exact trimTail_append _ _ (by rw [htw]; simp)
  rw [h1, dropToBrace_append_of_notMem _ _ hnb, htw]
  unfold dropToBrace
  rw [List.dropWhile_cons]
  simp

theorem dropToBrace_pyStrip (l : List Char) (hl : braceOpen ∈ l) :
    dropToBrace (pyStripChars l) = trimTail (dropToBrace l) := by
  unfold pyStripChars
  rw [dropToBrace_trimTail _ (mem_dropWhile_of_pred_false isPyWs_braceOpen hl),
    dropToBrace_dropLead]

/-- A line with no opening brace (after stripping, also a blank line) is
skipped with the parser state untouched. -/
theorem parseLineChars_no_brace (st : ParserState) (cs : List Char)
    (h : braceOpen ∉ cs) : parseLineChars st cs = (st, none) := by
  unfold parseLineChars
  by_cases he : (pyStripChars cs).isEmpty
  · simp [he]
  · have : braceOpen ∉ pyStripChars cs := fun hm => h (mem_of_mem_pyStrip hm)
    simp [he, this]

/-- Prepending one non-brace character to a line does not change
`parse_line`'s result. -/
theorem parseLineChars_cons_ne (st : ParserState) (c : Char) (cs : List Char)
    (hc : c ≠ braceOpen) : parseLineChars st (c :: cs) = parseLineChars st cs := by
  by_cases hw : isPyWs c = true
  · have hstrip : pyStripChars (c :: cs) = pyStripChars cs := by
      unfold pyStripChars
      rw [List.dropWhile_cons, if_pos hw]
    unfold parseLineChars
    rw [hstrip]
  · by_cases hb : braceOpen ∈ cs
    · have hb1 : braceOpen ∈ c :: cs := List.mem_cons_of_mem _ hb
      have e1 : dropToBrace (pyStripChars (c :: cs)) = dropToBrace (pyStripChars cs) := by
        rw [dropToBrace_pyStrip _ hb1, dropToBrace_pyStrip _ hb,
          dropToBrace_cons_ne c cs hc]
      have m1 : braceOpen ∈ pyStripChars (c :: cs) := brace_mem_pyStrip hb1
      have m2 : braceOpen ∈ pyStripChars cs := brace_mem_pyStrip hb
      have ne1 : (pyStripChars (c :: cs)).isEmpty = false :=
        List.isEmpty_eq_false.mpr (List.ne_nil_of_mem m1)
      have ne2 : (pyStripChars cs).isEmpty = false :=
        List.isEmpty_eq_false.mpr (List.ne_nil_of_mem m2)
      unfold parseLineChars
      simp only [ne1, ne2, Bool.false_eq_true, if_false, m1, m2, if_true, e1]
    · have : braceOpen ∉ c :: cs := by
        intro h
        rcases List.mem_cons.mp h with h | h
        · exact hc h.symm
        · exact hb h
      rw [parseLineChars_no_brace st _ this, parseLineChars_no_brace st _ hb]

/-- Prepending any brace-free prefix to a line does not change
`parse_line`'s result. -/
theorem parseLineChars_prepend (pre : List Char) :
    ∀ (st : ParserState) (cs : List Char), braceOpen ∉ pre →
      parseLineChars st (pre ++ cs) = parseLineChars st cs := by
  induction pre with
  | nil => intro st cs _; rfl
  | cons c t ih =>
    intro st cs hn
    have hc : c ≠ braceOpen := fun h => hn (by rw [h]; exact List.mem_cons_self _ _)
    have ht : braceOpen ∉ t := fun h => hn (List.mem_cons_of_mem c h)
    rw [List.cons_append, parseLineChars_cons_ne st c _ hc]
    exact ih st cs ht

theorem splitNL_cons_newline (t : List Char) : splitNL ('\n' :: t) = [] :: splitNL t := by
  conv_lhs => rw [splitNL]
  simp

theorem splitNL_cons_ne (c : Char) (t : List Char) (h : c ≠ '\n') :
    splitNL (c :: t) =
      match splitNL t with
      | hh :: r => (c :: hh) :: r
      | [] => [[c]] := by
  conv_lhs => rw [splitNL]
  rw [if_neg h]

theorem splitNL_ne_nil : ∀ l : List Char, splitNL l ≠ [] := by
  intro l
  match l with
  | [] => simp [splitNL]
  | c :: t =>
    unfold splitNL
    by_cases h : c = '\n'
    · simp [h]
    · simp only [if_neg h]
      rcases hs : splitNL t with _ | ⟨a, r⟩
      · simp
      · simp

/-- Folding the parser over the lines of `noise ++ s` for brace-free
`noise` gives the same final state as over the lines of `s`: the noise's
own lines are skipped, and its last fragment is stripped off the front of
`s`'s first line. -/
theorem runLines_prepend_noise (noise : List Char) :
    ∀ (st : ParserState) (cs : List Char), braceOpen ∉ noise →
      runLines st (splitNL (noise ++ cs)) = runLines st (splitNL cs) := by
  induction noise with
  | nil => intro st cs _; rfl
  | cons c t ih =>
    intro st cs hn
    have hc : c ≠ braceOpen := fun h => hn (by rw [h]; exact List.mem_cons_self _ _)
    have ht : braceOpen ∉ t := fun h => hn (List.mem_cons_of_mem c h)
    by_cases hnl : c = '\n'
    · subst hnl
      rw [List.cons_append, splitNL_cons_newline]
      show runLines st (splitNL (t ++ cs)) = runLines st (splitNL cs)
      exact ih st cs ht
    · rw [List.cons_append, splitNL_cons_ne c _ hnl]
      rcases hs : splitNL (t ++ cs) with _ | ⟨hh, r⟩
      · exact absurd hs (splitNL_ne_nil _)
      · show runLines (parseLineChars st (c :: hh)).1 r = runLines st (splitNL cs)
        rw [parseLineChars_cons_ne st c hh hc]
        show runLines st (hh :: r) = runLines st (splitNL cs)
        rw [← hs]
        exact ih st cs ht

/-- C9: prepending arbitrary brace-free noise before the first JSON
object leaves the aggregate of `parse_all` unchanged (session_id,
is_error, error_message, tool_call_count and the event list); the same
holds per line; blank lines and lines containing no opening brace are
skipped with the state untouched. -/
theorem stream_noise_invariance (noise stdout : String) (h : braceOpen ∉ noise.data) :
    parse_all (noise ++ stdout) = parse_all stdout ∧
    (∀ (st : ParserState) (pre line : String), braceOpen ∉ pre.data →
      parse_line st (pre ++ line) = parse_line st line) ∧
    (∀ (st : ParserState) (line : String), pyStripChars line.data = [] →
      parse_line st line = (st, none)) ∧
    (∀ (st : ParserState) (line : String), braceOpen ∉ line.data →
      parse_line st line = (st, none)) := by
  refine ⟨?_, fun st pre line hp => ?_, fun st line hb => ?_, fun st line hnb => ?_⟩
  · unfold parse_all
    rw [String.data_append, runLines_prepend_noise noise.data initState stdout.data h]
  · unfold parse_line
    rw [String.data_append]
    exact parseLineChars_prepend pre.data st line.data hp
  · unfold parse_line parseLineChars
    simp [hb]
  · exact parseLineChars_no_brace st line.data hnb

/-- Witness for C9: terminal-escape-style noise with a newline and blanks
before a result event. -/
theorem stream_noise_invariance_witness :
    (braceOpen ∉ ("]9;9;/home/user\n \t " : String).data) ∧
    (parse_all ("]9;9;/home/user\n \t " ++
        "\x7b\"type\": \"result\", \"is_error\": true, \"errors\": [\"E\"]\x7d") =
      parse_all "\x7b\"type\": \"result\", \"is_error\": true, \"errors\": [\"E\"]\x7d" ∧
      (∀ (st : ParserState) (pre line : String), braceOpen ∉ pre.data →
        parse_line st (pre ++ line) = parse_line st line) ∧
      (∀ (st : ParserState) (line : String), pyStripChars line.data = [] →
        parse_line st line = (st, none)) ∧
      (∀ (st : ParserState) (line : String), braceOpen ∉ line.data →
        parse_line st line = (st, none))) :=
  ⟨by decide,
    stream_noise_invariance "]9;9;/home/user\n \t "
      "\x7b\"type\": \"result\", \"is_error\": true, \"errors\": [\"E\"]\x7d" (by decide)⟩

theorem digitsVal_chars_bounded :
    ∀ (n : Nat) (l : List Char), l.length ≤ n → ∀ (acc v : Nat),
      digitsVal acc l = some v → ∀ c ∈ l, c.isDigit = true ∨ c = '_' := by
  intro n
  induction n with
  | zero =>
    intro l hl acc v h c hc
    rw [List.length_eq_zero.mp (Nat.le_zero.mp hl)] at hc
    cases hc
  | succ n ih =>
    intro l hl acc v h c hc
    rcases l with _ | ⟨a, t⟩
    · cases hc
    · unfold digitsVal at h
      by_cases ha : a.isDigit = true
      · rw [if_pos ha] at h
        rcases List.mem_cons.mp hc with h1 | h1
        · exact Or.inl (h1 ▸ ha)
        · exact ih t (by simpa using Nat.le_of_succ_le_succ hl) _ _ h c h1
      · rw [if_neg ha] at h
        by_cases hu : a = '_'
        · rw [if_pos hu] at h
          rcases t with _ | ⟨d, t2⟩
          · cases h
          · change (if d.isDigit = true then
                digitsVal (10 * acc + (d.toNat - 48)) t2 else none) = some v at h
            by_cases hd : d.isDigit = true
            · rw [if_pos hd] at h
              rcases List.mem_cons.mp hc with h1 | h1
              · exact Or.inr (h1 ▸ hu)
              · rcases List.mem_cons.mp h1 with h2 | h2
                · exact Or.inl (h2 ▸ hd)
                · refine ih t2 ?_ _ _ h c h2
                  simp only [List.length_cons] at hl
                  omega
            · rw [if_neg hd] at h
              cases h
        · rw [if_neg hu] at h
          cases h

theorem digitsVal_chars {acc v : Nat} {l : List Char} (h : digitsVal acc l = some v) :
    ∀ c ∈ l, c.isDigit = true ∨ c = '_' :=
  digitsVal_chars_bounded l.length l (Nat.le_refl _) acc v h

theorem pyInt_chars {s : String} {n : Int} (h : pyInt s = some n) :
    ∀ c ∈ s.data, c.isDigit = true ∨ c = '_' ∨ c = '+' ∨ c = '-' := by
  obtain ⟨l⟩ := s
  unfold pyInt at h
  have hdig : ∀ {l : List Char} {v : Nat}, pyDigits l = some v →
      ∀ x ∈ l, x.isDigit = true ∨ x = '_' := by
    intro l v hl x hx
    unfold pyDigits at hl
    rcases l with _ | ⟨d, t⟩
    · cases hx
    · change (if d.isDigit = true then digitsVal 0 (d :: t) else none) = some v at hl
      by_cases hdd : d.isDigit = true
      · rw [if_pos hdd] at hl
        exact digitsVal_chars hl x hx
      · rw [if_neg hdd] at hl
        cases hl
  show ∀ c ∈ l, _
  rcases l with _ | ⟨c0, rest⟩
  · intro c hc
    cases hc
  · change (if c0 = '+' then (pyDigits rest).map Int.ofNat
      else if c0 = '-' then (pyDigits rest).map (fun v => -(Int.ofNat v))
      else (pyDigits (c0 :: rest)).map Int.ofNat) = some n at h
    intro c hc
    by_cases h0 : c0 = '+'
    · rw [if_pos h0] at h
      rcases List.mem_cons.mp hc with h1 | h1
      · exact Or.inr (Or.inr (Or.inl (h1.trans h0)))
      · rcases Option.map_eq_some'.mp h with ⟨v, hv, _⟩
        rcases hdig hv c h1 with h2 | h2
        · exact Or.inl h2
        · exact Or.inr (Or.inl h2)
    · rw [if_neg h0] at h
      by_cases h1 : c0 = '-'
      · rw [if_pos h1] at h
        rcases List.mem_cons.mp hc with h2 | h2
        · exact Or.inr (Or.inr (Or.inr (h2.trans h1)))
        · rcases Option.map_eq_some'.mp h with ⟨v, hv, _⟩
          rcases hdig hv c h2 with h3 | h3
          · exact Or.inl h3
          · exact Or.inr (Or.inl h3)
      · rw [if_neg h1] at h
        rcases Option.map_eq_some'.mp h with ⟨v, hv, _⟩
        rcases hdig hv c hc with h3 | h3
        · exact Or.inl h3
        · exact Or.inr (Or.inl h3)

theorem isPyWs_of_isDigit {c : Char} (h : c.isDigit = true) : isPyWs c = false := by
  simp only [Char.isDigit, Bool.and_eq_true, decide_eq_true_eq] at h
  have h1 : 48 ≤ c.val.toNat := h.1
  have h2 : c.val.toNat ≤ 57 := h.2
  have hne : ∀ d : Char, (d.val.toNat < 48 ∨ 57 < d.val.toNat) → c ≠ d := by
    intro d hd hc
    subst hc
    omega
  simp only [isPyWs, decide_eq_false (hne ' ' (by decide)),
    decide_eq_false (hne '\t' (by decide)), decide_eq_false (hne '\n' (by decide)),
    decide_eq_false (hne '\r' (by decide)), decide_eq_false (hne '\x0b' (by decide)),
    decide_eq_false (hne '\x0c' (by decide)), Bool.or_false]

theorem toLower_of_lt_65 {c : Char} (h : c.toNat < 65) : c.toLower = c := by
  unfold Char.toLower
  rw [if_neg]
  omega

theorem toLower_of_gt_90 {c : Char} (h : 90 < c.toNat) : c.toLower = c := by
  unfold Char.toLower
  rw [if_neg]
  omega

theorem toLower_of_isDigit {c : Char} (h : c.isDigit = true) : c.toLower = c := by
  apply toLower_of_lt_65
  simp only [Char.isDigit, Bool.and_eq_true, decide_eq_true_eq] at h
  have h2 : c.val.toNat ≤ (57 : UInt32).toNat := h.2
  have h57 : (57 : UInt32).toNat = 57 := rfl
  simp only [Char.toNat]
  omega

theorem numChar_props {c : Char} (h : c.isDigit = true ∨ c = '_' ∨ c = '+' ∨ c = '-') :
    isPyWs c = false ∧ c ≠ 'T' ∧ c.toLower = c := by
  rcases h with h | h | h | h
  · refine ⟨isPyWs_of_isDigit h, ?_, toLower_of_isDigit h⟩
    intro hc
    rw [hc] at h
    cases h
  · subst h; exact ⟨by decide, by decide, by decide⟩
  · subst h; exact ⟨by decide, by decide, by decide⟩
  · subst h; exact ⟨by decide, by decide, by decide⟩

theorem map_eq_self_of_fixed {f : Char → Char} :
    ∀ {l : List Char}, (∀ c ∈ l, f c = c) → l.map f = l := by
  intro l h
  induction l with
  | nil => rfl
  | cons a t ih =>
    rw [List.map_cons, h a (List.mem_cons_self _ _), ih fun c hc => h c (List.mem_cons_of_mem _ hc)]

theorem dropWhile_eq_self_of_head {p : Char → Bool} {cs : List Char}
    (h : ∀ c, cs.head? = some c → p c = false) : cs.dropWhile p = cs := by
  cases cs with
  | nil => rfl
  | cons a t =>
    rw [List.dropWhile_cons, if_neg]
    rw [h a rfl]
    simp

theorem pyStripChars_eq_self {cs : List Char}
    (h1 : ∀ c, cs.head? = some c → isPyWs c = false)
    (h2 : ∀ c, cs.getLast? = some c → isPyWs c = false) : pyStripChars cs = cs := by
  unfold pyStripChars trimTail
  rw [dropWhile_eq_self_of_head h1]
  rw [dropWhile_eq_self_of_head]
  · exact List.reverse_reverse cs
  · intro c hc
    rw [List.head?_reverse] at hc
    exact h2 c hc

theorem splitOnP_no_p {p : Char → Bool} : ∀ {l : List Char},
    (∀ c ∈ l, p c = false) → l.splitOnP p = [l] := by
  intro l h
  induction l with
  | nil => exact List.splitOnP_nil p
  | cons a t ih =>
    rw [List.splitOnP_cons, if_neg (by rw [h a (List.mem_cons_self _ _)]; simp),
      ih fun c hc => h c (List.mem_cons_of_mem _ hc)]
    rfl

theorem splitOnP_sandwich {p : Char → Bool} {w : Char} (hw : p w = true) :
    ∀ {a b : List Char}, (∀ c ∈ a, p c = false) → (∀ c ∈ b, p c = false) →
      (a ++ w :: b).splitOnP p = [a, b] := by
  intro a b ha hb
  induction a with
  | nil =>
    rw [List.nil_append, List.splitOnP_cons, if_pos hw, splitOnP_no_p hb]
  | cons c a' ih =>
    rw [List.cons_append, List.splitOnP_cons,
      if_neg (by rw [ha c (List.mem_cons_self _ _)]; simp),
      ih fun x hx => ha x (List.mem_cons_of_mem _ hx)]
    rfl

theorem string_mk_data : ∀ s : String, String.mk s.data = s := fun ⟨_⟩ => rfl

theorem pySplit_sandwich {a b : List Char}
    (ha : ∀ c ∈ a, isPyWs c = false) (hb : ∀ c ∈ b, isPyWs c = false)
    (ha' : a ≠ []) (hb' : b ≠ []) :
    pySplit (String.mk (a ++ ' ' :: b)) = [String.mk a, String.mk b] := by
  unfold pySplit
  rw [show (String.mk (a ++ ' ' :: b)).data = a ++ ' ' :: b from rfl,
    splitOnP_sandwich (by decide) ha hb]
  rw [show List.filter (fun l => !l.isEmpty) [a, b] = [a, b] by
    simp [List.filter, List.isEmpty_eq_false.mpr ha', List.isEmpty_eq_false.mpr hb']]
  rfl

theorem getLast?_of_isSuffixOf {l sfx : List Char} (h : sfx.isSuffixOf l = true)
    (hne : sfx ≠ []) : l.getLast? = sfx.getLast? := by
  obtain ⟨t, ht⟩ := List.isSuffixOf_iff_suffix.mp h
  rw [← ht, List.getLast?_append]
  rcases hlast : sfx.getLast? with _ | c
  · exact absurd (List.getLast?_eq_none_iff.mp hlast) hne
  · rfl

theorem pyEndsWith_false_of_getLast {s sfx : String} {c c' : Char}
    (h1 : s.data.getLast? = some c) (h2 : sfx.data.getLast? = some c')
    (hne : c ≠ c') : pyEndsWith s sfx = false := by
  unfold pyEndsWith
  rcases Bool.eq_false_or_eq_true (sfx.data.isSuffixOf s.data) with h | h
  swap
  · exact h
  · exfalso
    have := getLast?_of_isSuffixOf h (by
      intro hn
      rw [hn] at h2
      cases h2)
    rw [h1, h2] at this
    exact hne (Option.some.inj this)

theorem pyInt_ne_empty {s : String} {n : Int} (h : pyInt s = some n) : s.data ≠ [] := by
  obtain ⟨l⟩ := s
  intro hl
  have hl' : l = [] := hl
  subst hl'
  simp [pyInt] at h

/-- The relative branch of `parse_time_string`: for any token `int()`
accepts (sign, digits, underscore grouping) and any unit word made of
lowercase non-whitespace letters other than `T` (not ending in `Z` or
`0`), the input `in <num> <unit>` is routed to the relative branch and
resolved by `rstrip("s")` on the unit. -/
theorem parse_time_relative (nowSec : Int) (numStr unitStr : String) (n : Int)
    (hnum : pyInt numStr = some n)
    (hu1 : unitStr.data ≠ [])
    (hu2 : ∀ c ∈ unitStr.data, isPyWs c = false ∧ c ≠ 'T' ∧ c.toLower = c)
    (hlast : ∀ c, unitStr.data.getLast? = some c → c ≠ 'Z' ∧ c ≠ '0') :
    parse_time_string nowSec ("in " ++ numStr ++ " " ++ unitStr) =
      (if rstripS unitStr = "minute" then .ok ⟨nowSec + 60 * n, 0, some 0⟩
       else if rstripS unitStr = "hour" then .ok ⟨nowSec + 3600 * n, 0, some 0⟩
       else if rstripS unitStr = "day" then .ok ⟨nowSec + 86400 * n, 0, some 0⟩
       else .error "Could not parse time string") := by
  have hnprops : ∀ c ∈ numStr.data, isPyWs c = false ∧ c ≠ 'T' ∧ c.toLower = c :=
    fun c hc => numChar_props (pyInt_chars hnum c hc)
  have hnne : numStr.data ≠ [] := pyInt_ne_empty hnum
  have hdata : ("in " ++ numStr ++ " " ++ unitStr).data =
      ['i', 'n', ' '] ++ (numStr.data ++ ([' '] ++ unitStr.data)) := by
    simp [String.data_append]
  obtain ⟨lc, hlc⟩ : ∃ lc, unitStr.data.getLast? = some lc := by
    rcases hg : unitStr.data.getLast? with _ | c
    · exact absurd (List.getLast?_eq_none_iff.mp hg) hu1
    · exact ⟨c, rfl⟩
  have hlast' : ("in " ++ numStr ++ " " ++ unitStr).data.getLast? = some lc := by
    rw [hdata, List.getLast?_append, List.getLast?_append, List.getLast?_append, hlc]
    rfl
  have hallchars : ∀ c ∈ ("in " ++ numStr ++ " " ++ unitStr).data,
      isPyWs c = false ∨ (c = 'i' ∨ c = 'n' ∨ c = ' ') := by
    intro c hc
    rw [hdata] at hc
    rcases List.mem_append.mp hc with h1 | h1
    · right
      simpa using h1
    · rcases List.mem_append.mp h1 with h2 | h2
      · exact Or.inl (hnprops c h2).1
      · rcases List.mem_append.mp h2 with h3 | h3
        · right
          right
          right
          simpa using h3
        · exact Or.inl (hu2 c h3).1
  have hstrip : pyStripString ("in " ++ numStr ++ " " ++ unitStr) =
      "in " ++ numStr ++ " " ++ unitStr := by
    unfold pyStripString
    rw [pyStripChars_eq_self, string_mk_data]
    · intro c hc
      rw [hdata] at hc
      cases hc
      rfl
    · intro c hc
      rw [hlast'] at hc
      cases hc
      exact (hu2 lc (List.mem_of_mem_getLast? hlc)).1
  have hT : pyContains ("in " ++ numStr ++ " " ++ unitStr) 'T' = false := by
    unfold pyContains
    rw [List.any_eq_false]
    intro c hc
    simp only [decide_eq_true_eq]
    intro he
    subst he
    rcases hallchars 'T' hc with h1 | h1
    · rw [hdata] at hc
      rcases List.mem_append.mp hc with h2 | h2
      · simp at h2
      · rcases List.mem_append.mp h2 with h3 | h3
        · exact (hnprops _ h3).2.1 rfl
        · rcases List.mem_append.mp h3 with h4 | h4
          · simp at h4
          · exact (hu2 _ h4).2.1 rfl
    · rcases h1 with h1 | h1 | h1 <;> cases h1
  have hZ : pyEndsWith ("in " ++ numStr ++ " " ++ unitStr) "Z" = false :=
    pyEndsWith_false_of_getLast hlast' rfl (hlast lc hlc).1
  have h00 : pyEndsWith ("in " ++ numStr ++ " " ++ unitStr) "+00:00" = false :=
    pyEndsWith_false_of_getLast hlast' rfl (hlast lc hlc).2
  have hlow : pyLower ("in " ++ numStr ++ " " ++ unitStr) =
      "in " ++ numStr ++ " " ++ unitStr := by
    unfold pyLower
    rw [map_eq_self_of_fixed, string_mk_data]
    intro c hc
    rw [hdata] at hc
    rcases List.mem_append.mp hc with h1 | h1
    · rcases (by simpa using h1 : c = 'i' ∨ c = 'n' ∨ c = ' ') with h | h | h <;>
        subst h <;> decide
    · rcases List.mem_append.mp h1 with h2 | h2
      · exact (hnprops c h2).2.2
      · rcases List.mem_append.mp h2 with h3 | h3
        · have h : c = ' ' := by simpa using h3
          subst h
          decide
        · exact (hu2 c h3).2.2
  have hnotnow : ("in " ++ numStr ++ " " ++ unitStr) ≠ "now" := by
    intro h
    have := congrArg String.data h
    rw [hdata] at this
    simp at this
  have hstarts : pyStartsWith ("in " ++ numStr ++ " " ++ unitStr) "in " = true := by
    unfold pyStartsWith
    exact List.isPrefixOf_iff_prefix.mpr ⟨numStr.data ++ ([' '] ++ unitStr.data), hdata.symm⟩
  have hdrop : pyDropLeft ("in " ++ numStr ++ " " ++ unitStr) 3 =
      String.mk (numStr.data ++ ' ' :: unitStr.data) := by
    unfold pyDropLeft
    rw [hdata]
    rfl
  have hsplitres : pySplit (String.mk (numStr.data ++ ' ' :: unitStr.data)) =
      [numStr, unitStr] := by
    rw [pySplit_sandwich (fun c hc => (hnprops c hc).1) (fun c hc => (hu2 c hc).1) hnne hu1,
      string_mk_data, string_mk_data]
  unfold parse_time_string
  simp only [hstrip, hT, hZ, h00, hlow, hstarts, hdrop, hsplitres, hnum, Bool.or_false,
    Bool.false_eq_true, if_false, if_neg hnotnow, if_true]

/-- C6 counterexample: `parse_time_string` accepts `in -5 minutes`
(negative amount, claimed rejected), rejects `IN 5 MINUTES` (uppercase
`MINUTES` contains `T`, so the input is routed to the ISO branch and
raises, refuting "any case"), accepts offset-less `2026-01-20T09:00:00`
returning a NAIVE datetime (claimed: parse error, and claimed all results
timezone-aware UTC), and keeps a `+05:30` offset instead of converting to
UTC. -/
theorem time_grammar_cex :
    parse_time_string 0 "in -5 minutes" = .ok ⟨-300, 0, some 0⟩ ∧
    parse_time_string 0 "IN 5 MINUTES" = .error "fromisoformat" ∧
    parse_time_string 0 "2026-01-20T09:00:00" = .ok ⟨1768899600, 0, none⟩ ∧
    parse_time_string 0 "2026-01-20T09:00:00+05:30" = .ok ⟨1768899600, 0, some 330⟩ := by
  refine ⟨?_, ?_, ?_, ?_⟩ <;> rfl

/-- C6 amended: `now` resolves to the current UTC instant for any input
whose stripped, lowercased form is `now` (and which does not hit the ISO
branch); `in <N> <unit>` accepts ANY Python integer literal `N`
(negative and underscore-grouped included) with lowercase units
minute/hour/day and any number of trailing `s`; strings containing `T`
or ending in `Z`/`+00:00` go to `fromisoformat`, which preserves an
explicit offset (UTC only for `Z`/`+00:00`) and yields a naive datetime
when no offset is present; everything else raises. -/
theorem time_grammar_contract (nowSec : Int) (s numStr : String) (n : Int)
    (hnum : pyInt numStr = some n)
    (hsT : pyContains (pyStripString s) 'T' = false)
    (hsZ : pyEndsWith (pyStripString s) "Z" = false)
    (hs0 : pyEndsWith (pyStripString s) "+00:00" = false)
    (hsnow : pyLower (pyStripString s) = "now") :
    parse_time_string nowSec s = .ok ⟨nowSec, 0, some 0⟩ ∧
    parse_time_string nowSec ("in " ++ numStr ++ " " ++ "minutes") =
      .ok ⟨nowSec + 60 * n, 0, some 0⟩ ∧
    parse_time_string nowSec ("in " ++ numStr ++ " " ++ "minute") =
      .ok ⟨nowSec + 60 * n, 0, some 0⟩ ∧
    parse_time_string nowSec ("in " ++ numStr ++ " " ++ "hours") =
      .ok ⟨nowSec + 3600 * n, 0, some 0⟩ ∧
    parse_time_string nowSec ("in " ++ numStr ++ " " ++ "days") =
      .ok ⟨nowSec + 86400 * n, 0, some 0⟩ ∧
    parse_time_string nowSec "2026-01-20T09:00:00Z" = .ok ⟨1768899600, 0, some 0⟩ ∧
    parse_time_string nowSec "2026-01-20T09:00:00" = .ok ⟨1768899600, 0, none⟩ ∧
    parse_time_string nowSec "2026-01-20T09:00:00+05:30" =
      .ok ⟨1768899600, 0, some 330⟩ ∧
    parse_time_string nowSec "tomorrow" = .error "Could not parse time string" := by
  refine ⟨?_, ?_, ?_, ?_, ?_, rfl, rfl, rfl, rfl⟩
  · unfold parse_time_string
    simp only [hsT, hsZ, hs0, Bool.or_false, Bool.false_eq_true, if_false, hsnow]
    simp
  · rw [parse_time_relative nowSec numStr "minutes" n hnum (by decide)
      (by decide) (by decide)]
    rw [if_pos (by decide : rstripS "minutes" = "minute")]
  · rw [parse_time_relative nowSec numStr "minute" n hnum (by decide)
      (by decide) (by decide)]
    rw [if_pos (by decide : rstripS "minute" = "minute")]
  · rw [parse_time_relative nowSec numStr "hours" n hnum (by decide)
      (by decide) (by decide)]
    rw [if_neg (by decide : ¬ rstripS "hours" = "minute"),
      if_pos (by decide : rstripS "hours" = "hour")]
  · rw [parse_time_relative nowSec numStr "days" n hnum (by decide)
      (by decide) (by decide)]
    rw [if_neg (by decide : ¬ rstripS "days" = "minute"),
      if_neg (by decide : ¬ rstripS "days" = "hour"),
      if_pos (by decide : rstripS "days" = "day")]

/-- Witness for the amended C6, at `now = 42`, the literal `NOW`, and the
amount token `-5`. -/
theorem time_grammar_contract_witness :
    pyInt "-5" = some (-5) ∧
    pyContains (pyStripString "NOW") 'T' = false ∧
    pyEndsWith (pyStripString "NOW") "Z" = false ∧
    pyEndsWith (pyStripString "NOW") "+00:00" = false ∧
    pyLower (pyStripString "NOW") = "now" ∧
    (parse_time_string 42 "NOW" = .ok ⟨42, 0, some 0⟩ ∧
      parse_time_string 42 ("in " ++ "-5" ++ " " ++ "minutes") =
        .ok ⟨42 + 60 * (-5), 0, some 0⟩ ∧
      parse_time_string 42 ("in " ++ "-5" ++ " " ++ "minute") =
        .ok ⟨42 + 60 * (-5), 0, some 0⟩ ∧
      parse_time_string 42 ("in " ++ "-5" ++ " " ++ "hours") =
        .ok ⟨42 + 3600 * (-5), 0, some 0⟩ ∧
      parse_time_string 42 ("in " ++ "-5" ++ " " ++ "days") =
        .ok ⟨42 + 86400 * (-5), 0, some 0⟩ ∧
      parse_time_string 42 "2026-01-20T09:00:00Z" = .ok ⟨1768899600, 0, some 0⟩ ∧
      parse_time_string 42 "2026-01-20T09:00:00" = .ok ⟨1768899600, 0, none⟩ ∧
      parse_time_string 42 "2026-01-20T09:00:00+05:30" =
        .ok ⟨1768899600, 0, some 330⟩ ∧
      parse_time_string 42 "tomorrow" = .error "Could not parse time string") :=
  ⟨by decide, by decide, by decide, by decide, by decide,
    time_grammar_contract 42 "NOW" "-5" (-5) (by decide) (by decide) (by decide)
      (by decide) (by decide)⟩

theorem httpBearer_bearer (X : String) (hX : X ≠ "") :
    httpBearer (some ("Bearer " ++ X)) = .ok X := by
  have hdata : ("Bearer " ++ X).data =
      'B' :: 'e' :: 'a' :: 'r' :: 'e' :: 'r' :: ' ' :: X.data := by
    simp [String.data_append]
  show (if (String.mk ((("Bearer " ++ X).data.dropWhile (fun c => c ≠ ' ')).drop 1)).isEmpty
        || !(pyLower (String.mk (("Bearer " ++ X).data.takeWhile (fun c => c ≠ ' '))) == "bearer")
      then Except.error 401
      else Except.ok (String.mk ((("Bearer " ++ X).data.dropWhile (fun c => c ≠ ' ')).drop 1)))
      = Except.ok X
  rw [hdata]
  have htake : ('B' :: 'e' :: 'a' :: 'r' :: 'e' :: 'r' :: ' ' :: X.data).takeWhile
      (fun c => c ≠ ' ') = ['B', 'e', 'a', 'r', 'e', 'r'] := by
    simp [List.takeWhile_cons]
  have hdrop : (('B' :: 'e' :: 'a' :: 'r' :: 'e' :: 'r' :: ' ' :: X.data).dropWhile
      (fun c => c ≠ ' ')).drop 1 = X.data := by
    simp [List.dropWhile_cons]
  rw [htake, hdrop, string_mk_data]
  rw [if_neg]
  simp only [Bool.or_eq_true, Bool.not_eq_true']
  rintro (h | h)
  · exact hX ((String.isEmpty_iff X).mp h)
  · simp [pyLower] at h

/-- C7: with a nonempty configured token, a request to an authenticated
endpoint with no Authorization header gets 401; a nonempty bearer token
different from the configured one gets 403; the configured token passes;
and `GET /api/health` succeeds with no (or any) Authorization header. -/
theorem api_auth_contract (path : String) (T X : String) (hT : T ≠ "")
    (hpath : path ≠ "/api/health") (hX : X ≠ T) (hX' : X ≠ "")
    (anyHeader : Option String) :
    requestAuthStatus (some T) path none = 401 ∧
    requestAuthStatus (some T) path (some ("Bearer " ++ X)) = 403 ∧
    requestAuthStatus (some T) path (some ("Bearer " ++ T)) = 200 ∧
    requestAuthStatus (some T) "/api/health" anyHeader = 200 := by
  have hTe : T.isEmpty = false := by
    rcases Bool.eq_false_or_eq_true T.isEmpty with h | h
    · exact absurd ((String.isEmpty_iff T).mp h) hT
    · exact h
  refine ⟨?_, ?_, ?_, by simp [requestAuthStatus]⟩
  · simp [requestAuthStatus, hpath, httpBearer]
  · unfold requestAuthStatus
    rw [if_neg hpath, httpBearer_bearer X hX']
    simp [verifyBearerToken, hTe, hX]
  · unfold requestAuthStatus
    rw [if_neg hpath, httpBearer_bearer T hT]
    simp [verifyBearerToken, hTe]

/-- Witness for C7: token `secret`, wrong token `wrong`, the `/api/status`
endpoint. -/
theorem api_auth_contract_witness :
    ("secret" ≠ "") ∧ ("/api/status" ≠ "/api/health") ∧ ("wrong" ≠ "secret") ∧
    ("wrong" ≠ "") ∧
    (requestAuthStatus (some "secret") "/api/status" none = 401 ∧
      requestAuthStatus (some "secret") "/api/status" (some ("Bearer " ++ "wrong")) = 403 ∧
      requestAuthStatus (some "secret") "/api/status" (some ("Bearer " ++ "secret")) = 200 ∧
      requestAuthStatus (some "secret") "/api/health" none = 200) :=
  ⟨by decide, by decide, by decide, by decide,
    api_auth_contract "/api/status" "secret" "wrong" (by decide) (by decide) (by decide)
      (by decide) none⟩

/-- Witness for C10: id 7 is absent from a one-pulse store. -/
theorem missing_pulse_noop_witness :
    getPulse (Store.mk [samplePulse 1 .pending] 2) 7 = none ∧
    (markCompleted (Store.mk [samplePulse 1 .pending] 2) 0 7 5 =
        Store.mk [samplePulse 1 .pending] 2 ∧
      markFailed (Store.mk [samplePulse 1 .pending] 2) 0 7 "gone" true =
        (none, Store.mk [samplePulse 1 .pending] 2)) :=
  ⟨rfl, missing_pulse_noop (Store.mk [samplePulse 1 .pending] 2) 0 7 5 "gone" true rfl⟩

end Reeve
